import Mathlib

/-
  Verification of the ramalama model-pull core (ramalama.py, ramalama/url.py)
  against its natural-language specification.

  The embedding models the Python sources shallowly:
  * Python strings are Lean `String`s; the Python string operations used by the
    source (`in`, `split`, `rsplit`, `startswith`, `endswith`, `replace`,
    `rstrip`) are defined below on the character list of the string, with the
    exact Python semantics.
  * Filesystem paths are normalized component lists (`Path`); building a path
    by string concatenation / `os.path.join` in the source corresponds to
    `pjoin`, which splits on `/` and drops empty and `.` components and
    resolves `..`, exactly as path normalization does for the absolute paths
    the program constructs.
  * The filesystem is an association list from paths to entries; a write
    shadows earlier entries.  `os.path.exists` follows a symlink one level
    (the program only creates symlinks whose targets are regular files).
  * External commands are modelled by their command-line contract:
    `curl -o F URL` writes the fetched bytes to `F` (or fails with the curl
    return code); `ln -sf T L` writes the symlink `L -> T`; `omlmd pull
    --output D` materializes the pulled artifact files inside `D`;
    `huggingface-cli download` (invoked with an explicit `--cache-dir` inside
    the store) prints the path of the cached download on stdout and, with an
    unchanged network and a warm cache, mutates nothing.  The remote data these
    commands would consume is an oracle (`Net`), fixed across invocations to
    model an unchanged network.
  * `sys.exit` and uncaught Python exceptions are the `exit` and `raised`
    outcomes; every state-changing function also returns the list of
    filesystem-mutating events it performed.
-/

namespace Ramalama

/-! ## Python string primitives -/

/-- Python `c in s` for a single character `c`. -/
def pyContains (s : String) (c : Char) : Bool := s.data.contains c

/-- Python `s.startswith(pre)`. -/
def pyStartswith (s pre : String) : Bool := pre.data.isPrefixOf s.data

/-- Python `s.endswith(suf)`. -/
def pyEndswith (s suf : String) : Bool := suf.data.isSuffixOf s.data

/-- Python `re.sub(r'^pre', '', s)` for a literal prefix `pre`. -/
def stripPrefixStr (pre s : String) : String :=
  if pyStartswith s pre then String.mk (s.data.drop pre.data.length) else s

/-- Split a character list at every occurrence of `c` (Python `s.split(c)`). -/
def splitCharAux (c : Char) : List Char → List (List Char)
  | [] => [[]]
  | x :: xs =>
    match splitCharAux c xs with
    | [] => [[x]]
    | h :: t => if x = c then [] :: h :: t else (x :: h) :: t

/-- Python `s.split(c)` for a one-character separator. -/
def pySplit (s : String) (c : Char) : List String :=
  (splitCharAux c s.data).map String.mk

/-- Split a character list at the first occurrence of `c`, if any. -/
def splitFirstAux (c : Char) : List Char → Option (List Char × List Char)
  | [] => none
  | x :: xs =>
    if x = c then some ([], xs)
    else
      match splitFirstAux c xs with
      | none => none
      | some (a, b) => some (x :: a, b)

/-- Python `s.split(c, 1)`. -/
def pySplit1 (s : String) (c : Char) : List String :=
  match splitFirstAux c s.data with
  | none => [s]
  | some (a, b) => [String.mk a, String.mk b]

/-- Python `s.rsplit(c, 1)`. -/
def pyRSplit1 (s : String) (c : Char) : List String :=
  match splitFirstAux c s.data.reverse with
  | none => [s]
  | some (a, b) => [String.mk b.reverse, String.mk a.reverse]

/-- Python `s.replace(a, b)` for one-character `a`, `b`. -/
def pyReplaceChar (s : String) (a b : Char) : String :=
  String.mk (s.data.map fun c => if c = a then b else c)

/-- Python `s.rstrip()`. -/
def pyRstrip (s : String) : String :=
  String.mk (s.data.reverse.dropWhile Char.isWhitespace).reverse

/-- Python `os.path.basename` applied to a reference string. -/
def pyBasenameStr (s : String) : String := (pySplit s '/').getLastD s

/-! ## Paths and the filesystem -/

/-- A normalized absolute path, as its list of components. -/
abbrev Path := List String

/-- Normalize path components: drop empty and `.` components, let `..` pop. -/
def normComps (cs : List String) : Path :=
  cs.foldl
    (fun acc c =>
      if c = "" || c = "." then acc
      else if c = ".." then acc.dropLast
      else acc ++ [c])
    []

/-- Components of a path given as a string. -/
def strComps (s : String) : Path := normComps (pySplit s '/')

/-- `os.path.join(p, s)` (and the string concatenation `f"{p}/{s}"`). -/
def pjoin (p : Path) (s : String) : Path := p ++ strComps s

/-- Length of the common prefix of two paths. -/
def commonLen : Path → Path → Nat
  | a :: as, b :: bs => if a = b then commonLen as bs + 1 else 0
  | _, _ => 0

/-- `os.path.relpath(target, start)` on normalized absolute paths. -/
def relpath (target start : Path) : Path :=
  let i := commonLen target start
  List.replicate (start.length - i) ".." ++ target.drop i

/-- Resolve a relative path against a directory. -/
def resolveP (dir rel : Path) : Path := normComps (dir ++ rel)

/-- Display a path as the string the program would print. -/
def pathStr (p : Path) : String := "/" ++ String.intercalate "/" p

/-- A filesystem entry: regular file with its bytes, directory, or symlink. -/
inductive Entry
  | file (content : List Nat)
  | dir
  | symlink (target : Path)
deriving DecidableEq

/-- The filesystem: an association list from paths to entries; a write shadows
earlier entries. -/
abbrev FS := List (Path × Entry)

/-- Look up the entry at a path. -/
def lookupFS (fs : FS) (p : Path) : Option Entry :=
  (fs.find? fun e => e.1 = p).map (·.2)

/-- Write an entry at a path. -/
def insertFS (p : Path) (e : Entry) (fs : FS) : FS := (p, e) :: fs

/-- Is there a directory at `p`? -/
def isDirAt (fs : FS) (p : Path) : Bool := lookupFS fs p = some Entry.dir

/-- `os.readlink`. -/
def readlinkFS (fs : FS) (p : Path) : Option Path :=
  match lookupFS fs p with
  | some (Entry.symlink t) => some t
  | _ => none

/-- Read the bytes of a regular file, following one level of symlink the way
`open` does (the program only links to regular files). -/
def readFileFS (fs : FS) (p : Path) : Option (List Nat) :=
  match lookupFS fs p with
  | some (Entry.file c) => some c
  | some (Entry.symlink t) =>
    match lookupFS fs (resolveP p.dropLast t) with
    | some (Entry.file c) => some c
    | _ => none
  | _ => none

/-- `os.path.exists`: a symlink exists only when its target does. -/
def pexists (fs : FS) (p : Path) : Bool :=
  match lookupFS fs p with
  | some (Entry.symlink t) =>
    match lookupFS fs (resolveP p.dropLast t) with
    | some (Entry.symlink _) => false
    | some _ => true
    | none => false
  | some _ => true
  | none => false

/-- A filesystem-mutating action performed by the program. -/
inductive Ev
  | mkdir (p : Path)
  | fetch (p : Path)
  | link (target : Path) (p : Path)
  | copy (src : Path) (dst : Path)
  | extPull (outdir : Path)
deriving DecidableEq

/-- Is an action a symlink write? -/
def isLinkEv : Ev → Bool
  | Ev.link _ _ => true
  | _ => false

/-- How an invocation ends: normally, via `sys.exit`, or with an uncaught
Python exception. -/
inductive Outcome (α : Type)
  | ok (a : α)
  | exit (code : Int) (msg : Option String)
  | raised (exc : String)
deriving DecidableEq

/-- Result of a state-changing function: outcome, final filesystem, and the
trace of filesystem-mutating actions. -/
abbrev R (α : Type) := Outcome α × FS × List Ev

/-- `os.makedirs(p, exist_ok=True)`: creates the directory when missing. -/
def makedirs (fs : FS) (p : Path) : FS × List Ev :=
  if isDirAt fs p then (fs, []) else (insertFS p Entry.dir fs, [Ev.mkdir p])

/-- `fs'` extends `fs` only with entries whose paths satisfy `P`. -/
def AddsOnly (P : Path → Prop) (fs fs' : FS) : Prop :=
  ∃ new : FS, fs' = new ++ fs ∧ ∀ x ∈ new, P x.1

/-! ## Remote data (the network oracle)

An Ollama manifest as the program reads it after `json.load`: the config blob
digest and the layer descriptors (`manifest_data["config"]["digest"]`,
`manifest_data["layers"][i]["digest"|"mediaType"]`). -/

/-- One manifest layer descriptor. -/
structure Layer where
  digest : String
  mediaType : String
deriving DecidableEq

/-- A parsed Ollama manifest. -/
structure Manifest where
  configDigest : String
  layers : List Layer
deriving DecidableEq

/-- Result of one `curl` invocation: the fetched bytes, or the curl return
code (`subprocess.CalledProcessError.returncode`, nonzero). -/
inductive Dl
  | content (bytes : List Nat)
  | fail (rc : Int)
deriving DecidableEq

/-- Result of the manifest fetch followed by `json.load`. -/
inductive MFetch
  | ok (bytes : List Nat) (md : Manifest)
  | fail (rc : Int)
deriving DecidableEq

/-- The state of the remote world, fixed across invocations ("no network
changes"): the manifest fetch result, blob contents by digest, the stdout of
`huggingface-cli download`, and the artifact files `omlmd pull` materializes
(their names, as `os.listdir` reports them, and their contents). -/
structure Net where
  manifest : MFetch
  blob : String → Dl
  hfOut : String
  ociFiles : List String
  ociData : String → List Nat

/-! ## ramalama.py -/

/-- Result of `verify_checksum`: Python returns a bool or raises. -/
inductive VC
  | ok (b : Bool)
  | err (exc : String)
deriving DecidableEq

/-- `verify_checksum(filename)` (ramalama.py:19-52): false when the file does
not exist; raises unless the basename starts with `sha256:` and carries a
64-character digest; otherwise compares the file's content hash (the hash
function `ha` is a parameter of the embedding) with that digest. -/
def verify_checksum (ha : List Nat → String) (fs : FS) (filename : Path) : VC :=
  if pexists fs filename = false then VC.ok false
  else
    let fn_base := filename.getLastD ""
    if pyStartswith fn_base "sha256:" = false then
      VC.err "ValueError: Filename does not start with sha256:"
    else
      let expected := (pySplit fn_base ':').getD 1 ""
      if expected.length ≠ 64 then VC.err "ValueError: Invalid checksum length in filename"
      else
        match readFileFS fs filename with
        | some c => VC.ok (ha c = expected)
        | none => VC.err "IsADirectoryError"

/-- `run_curl_cmd(args, filename)` (ramalama.py:73-80): skip when the checksum
check passes; otherwise run curl, writing `filename` on success and calling
`sys.exit(returncode)` on failure (printing a not-found message for code 22). -/
def run_curl_cmd (ha : List Nat → String) (fs : FS) (curl : Dl) (filename : Path) : R Unit :=
  match verify_checksum ha fs filename with
  | VC.err e => (Outcome.raised e, fs, [])
  | VC.ok true => (Outcome.ok (), fs, [])
  | VC.ok false =>
    match curl with
    | Dl.content bytes => (Outcome.ok (), insertFS filename (Entry.file bytes) fs, [Ev.fetch filename])
    | Dl.fail rc =>
      (Outcome.exit rc (if rc = 22 then some (pathStr filename ++ " not found") else none),
        fs, [Ev.fetch filename])

/-- `pull_ollama_blob` (ramalama.py:105-118): fetch the layer blob via
`run_curl_cmd`, create the models directory, and `ln -sf` the relative target
into place. -/
def pull_ollama_blob (ha : List Nat → String) (fs : FS) (net : Net)
    (repos_ollama : Path) (layer_digest : String)
    (ramalama_models : Path) (symlink_path : Path) : R Unit :=
  let layer_blob_path := pjoin (repos_ollama ++ ["blobs"]) layer_digest
  match run_curl_cmd ha fs (net.blob layer_digest) layer_blob_path with
  | (Outcome.ok _, fs1, ev1) =>
    let (fs2, ev2) := makedirs fs1 ramalama_models
    let rtp := relpath layer_blob_path symlink_path.dropLast
    (Outcome.ok (), insertFS symlink_path (Entry.symlink rtp) fs2,
      ev1 ++ ev2 ++ [Ev.link rtp symlink_path])
  | (Outcome.exit c m, fs1, ev1) => (Outcome.exit c m, fs1, ev1)
  | (Outcome.raised e, fs1, ev1) => (Outcome.raised e, fs1, ev1)

/-- The loop over `manifest_data["layers"]` in `init_pull` (ramalama.py:135-142):
layers whose mediaType is not the model content type are skipped. -/
def layersLoop (ha : List Nat → String) (net : Net)
    (repos_ollama ramalama_models symlink_path : Path) :
    List Layer → FS → R Unit
  | [], fs => (Outcome.ok (), fs, [])
  | l :: ls, fs =>
    if l.mediaType ≠ "application/vnd.ollama.image.model" then
      layersLoop ha net repos_ollama ramalama_models symlink_path ls fs
    else
      match pull_ollama_blob ha fs net repos_ollama l.digest ramalama_models symlink_path with
      | (Outcome.ok _, fs1, ev1) =>
        match layersLoop ha net repos_ollama ramalama_models symlink_path ls fs1 with
        | (o, fs2, ev2) => (o, fs2, ev1 ++ ev2)
      | (Outcome.exit c m, fs1, ev1) => (Outcome.exit c m, fs1, ev1)
      | (Outcome.raised e, fs1, ev1) => (Outcome.raised e, fs1, ev1)

/-- `init_pull` (ramalama.py:121-144): fetch and store the manifest (a
failure with curl code 22 prints `{model}:{model_tag} not found` and exits
with the curl return code; any other failure exits with that code), then the
config blob, then every model-content layer, and return `symlink_path`. -/
def init_pull (ha : List Nat → String) (fs : FS) (net : Net)
    (repos_ollama manifests : Path) (model_tag : String)
    (ramalama_models symlink_path : Path) (model : String) : R Path :=
  let (fs1, ev1) := makedirs fs manifests.dropLast
  let (fs2, ev2) := makedirs fs1 (repos_ollama ++ ["blobs"])
  match net.manifest with
  | MFetch.fail rc =>
    (Outcome.exit rc (if rc = 22 then some (model ++ ":" ++ model_tag ++ " not found") else none),
      fs2, ev1 ++ ev2 ++ [Ev.fetch manifests])
  | MFetch.ok bytes md =>
    let fs3 := insertFS manifests (Entry.file bytes) fs2
    let ev3 := ev1 ++ ev2 ++ [Ev.fetch manifests]
    let config_blob_path := pjoin (repos_ollama ++ ["blobs"]) md.configDigest
    match run_curl_cmd ha fs3 (net.blob md.configDigest) config_blob_path with
    | (Outcome.ok _, fs4, ev4) =>
      match layersLoop ha net repos_ollama ramalama_models symlink_path md.layers fs4 with
      | (Outcome.ok _, fs5, ev5) => (Outcome.ok symlink_path, fs5, ev3 ++ ev4 ++ ev5)
      | (Outcome.exit c m, fs5, ev5) => (Outcome.exit c m, fs5, ev3 ++ ev4 ++ ev5)
      | (Outcome.raised e, fs5, ev5) => (Outcome.raised e, fs5, ev3 ++ ev4 ++ ev5)
    | (Outcome.exit c m, fs4, ev4) => (Outcome.exit c m, fs4, ev3 ++ ev4)
    | (Outcome.raised e, fs4, ev4) => (Outcome.raised e, fs4, ev3 ++ ev4)

/-- `pull_huggingface` (ramalama.py:233-253): strip the scheme, split the
reference at the last `/` into directory and filename, obtain the cached
download path from `huggingface-cli` (stdout, an oracle), create the models
directory, and publish the symlink — unless an existing symlink already has
exactly the freshly computed relative target. -/
def pull_huggingface (ha : List Nat → String) (fs : FS) (net : Net)
    (store : Path) (model : String) : R Path :=
  let m := stripPrefixStr "huggingface://" model
  match pyRSplit1 m '/' with
  | [directory, filename] =>
    let gguf_path := net.hfOut
    let dirP := pjoin (store ++ ["models", "huggingface"]) directory
    let (fs1, ev1) := makedirs fs dirP
    let symlink_path := pjoin dirP filename
    let rtp := relpath (strComps (pyRstrip gguf_path)) symlink_path.dropLast
    if pexists fs1 symlink_path = true ∧ readlinkFS fs1 symlink_path = some rtp then
      (Outcome.ok symlink_path, fs1, ev1)
    else
      (Outcome.ok symlink_path, insertFS symlink_path (Entry.symlink rtp) fs1,
        ev1 ++ [Ev.link rtp symlink_path])
  | _ => (Outcome.raised "ValueError: not enough values to unpack", fs, [])

/-- `oci_target_decompose` (ramalama.py:331-339): strip the scheme, split at
the first `/` into registry and reference (Python raises ValueError when there
is no `/` to split on), reject registries without a dot via
`print_error` + `sys.exit(1)`, and derive the reference directory. -/
def oci_target_decompose (model : String) : Outcome (String × String × String × String) :=
  let target := stripPrefixStr "oci://" model
  match pySplit1 target '/' with
  | [registry, reference] =>
    if pyContains registry '.' = false then
      Outcome.exit 1 (some ("You must specify a registry for the model in the form oci://registry.acme.org/ns/repo:tag, got instead: " ++ model))
    else
      Outcome.ok (target, registry, reference, pyReplaceChar reference ':' '/')
  | _ => Outcome.raised "ValueError: not enough values to unpack"

/-- `pull_oci` (ramalama.py:256-284): decompose the target, `omlmd pull` the
artifact into the repos area, require exactly one `.gguf` file in the output
directory (`sys.exit(-1)` otherwise), and publish the symlink — unless an
existing symlink already has exactly the freshly computed relative target. -/
def pull_oci (ha : List Nat → String) (fs : FS) (net : Net)
    (store : Path) (model : String) : R Path :=
  match oci_target_decompose model with
  | Outcome.exit c m => (Outcome.exit c m, fs, [])
  | Outcome.raised e => (Outcome.raised e, fs, [])
  | Outcome.ok (_, registry, _, reference_dir) =>
    let outdir := pjoin (pjoin (store ++ ["repos", "oci"]) registry) reference_dir
    let fs1 := (net.ociFiles.map fun f => (pjoin outdir f, Entry.file (net.ociData f))) ++ fs
    let ev1 := [Ev.extPull outdir]
    let ggufs := net.ociFiles.filter fun f => pyEndswith f ".gguf"
    if ggufs.length ≠ 1 then
      (Outcome.exit (-1) (some ("Error: Unable to identify .gguf file in: " ++ pathStr outdir)),
        fs1, ev1)
    else
      let g := ggufs.getD 0 ""
      let dirP := pjoin (pjoin (store ++ ["models", "oci"]) registry) reference_dir
      let (fs2, ev2) := makedirs fs1 dirP
      let symlink_path := pjoin dirP g
      let rtp := relpath (pjoin outdir g) symlink_path.dropLast
      if pexists fs2 symlink_path = true ∧ readlinkFS fs2 symlink_path = some rtp then
        (Outcome.ok symlink_path, fs2, ev1 ++ ev2)
      else
        (Outcome.ok symlink_path, insertFS symlink_path (Entry.symlink rtp) fs2,
          ev1 ++ ev2 ++ [Ev.link rtp symlink_path])

/-- The Ollama name/tag resolution of `pull_cli` (ramalama.py:305-315), after
the `ollama://` prefix has been stripped: default the namespace to `library`
when there is no `/`, then split name from tag at the first `:`
(`model_full.split(':', 1)`), defaulting the tag to `latest`. -/
def ollama_name_tag (model : String) : String × String :=
  let model_full := if pyContains model '/' then model else "library/" ++ model
  if pyContains model_full ':' then
    match splitFirstAux ':' model_full.data with
    | some (a, b) => (String.mk a, String.mk b)
    | none => (model_full, "latest")
  else (model_full, "latest")

/-- Does a filesystem path match the glob pattern
`{store}/models/*/{model}` of pull_cli (ramalama.py:292)? -/
def globMatch (store : Path) (mc : Path) (k : Path) : Bool :=
  decide (k.length = store.length + 2 + mc.length
    ∧ k.take store.length = store
    ∧ k.getD store.length "" = "models"
    ∧ k.drop (store.length + 2) = mc)

/-- `glob.glob(f"{store}/models/*/{model}")` followed by taking the first
match, in directory order (the order of the filesystem listing). -/
def globFirst (fs : FS) (store : Path) (mc : Path) : Option Path :=
  ((fs.filter fun e => globMatch store mc e.1).head?).map (·.1)

/-- `pull_cli` (ramalama.py:287-325): return the first glob match under
`models/*/` if any; dispatch on the `huggingface://` and `oci://` scheme
prefixes; otherwise treat the reference as Ollama: strip the scheme, resolve
name and tag, return the symlink path if it already exists, else run
`init_pull`. -/
def pull_cli (ha : List Nat → String) (fs : FS) (net : Net)
    (store : Path) (model : String) : R Path :=
  let mc := strComps model
  match globFirst fs store mc with
  | some m => (Outcome.ok m, fs, [])
  | none =>
    if pyStartswith model "huggingface://" then pull_huggingface ha fs net store model
    else if pyStartswith model "oci://" then pull_oci ha fs net store model
    else
      let model1 := stripPrefixStr "ollama://" model
      let repos_ollama := store ++ ["repos", "ollama"]
      let ramalama_models := store ++ ["models", "ollama"]
      let nt := ollama_name_tag model1
      let model_base := pyBasenameStr nt.1
      let symlink_path := pjoin ramalama_models (model_base ++ ":" ++ nt.2)
      if pexists fs symlink_path then (Outcome.ok symlink_path, fs, [])
      else
        let manifests :=
          pjoin (pjoin (pjoin (repos_ollama ++ ["manifests"]) "https://registry.ollama.ai") nt.1) nt.2
        init_pull ha fs net repos_ollama manifests nt.2 ramalama_models symlink_path model1

/-! ## ramalama/url.py -/

/-- Modelled from the spec: `HuggingfaceRepository.REGISTRY_URL`
(ramalama/huggingface.py is not part of the sources), "the Hugging Face
registry" URL used by the `resolve`-shape check. -/
def REGISTRY_URL : String := "https://huggingface.co"

/-- `URL.extract_model_identifiers` (ramalama/url.py:33-46), as the
transformation it applies to the base identifiers `(name, tag, organization)`
returned by `super().extract_model_identifiers()`. -/
def extract_model_identifiers (base : String × String × String) : String × String × String :=
  let name := base.1
  let tag0 := base.2.1
  let org0 := base.2.2
  let parts := pySplit org0 '/'
  let p2 := parts.getD (parts.length - 2) ""
  let r1 :=
    if parts.length > 2 ∧ p2 = "blob" then
      (parts.getLastD "", String.intercalate "/" (parts.dropLast.dropLast))
    else (tag0, org0)
  let r2 :=
    if parts.length > 2 ∧ pyEndswith REGISTRY_URL (parts.getD 0 "") = true ∧ p2 = "resolve" then
      (parts.getLastD "", String.intercalate "/" (parts.dropLast.dropLast))
    else r1
  (name, r2.1, r2.2)

/-- `LocalModelFile.download` (ramalama/url.py:17-22): raise FileNotFoundError
when the source does not exist, else copy (not move) the source into the blob
path and return the blob path relative to the snapshot directory. -/
def LocalModelFile_download (fs : FS) (url : String)
    (blob_file_path snapshot_dir : Path) : R Path :=
  if pexists fs (strComps url) = false then
    (Outcome.raised ("FileNotFoundError: No such file: " ++ url), fs, [])
  else
    match readFileFS fs (strComps url) with
    | some c =>
      (Outcome.ok (relpath blob_file_path snapshot_dir),
        insertFS blob_file_path (Entry.file c) fs,
        [Ev.copy (strComps url) blob_file_path])
    | none => (Outcome.raised "IsADirectoryError", fs, [])

/-- The resolution the claim describes: split name from tag at the LAST `:`
(written from the claim's words, for comparison with `ollama_name_tag`). -/
def ollama_name_tag_lastsplit (model : String) : String × String :=
  let model_full := if pyContains model '/' then model else "library/" ++ model
  if pyContains model_full ':' then
    match splitFirstAux ':' model_full.data.reverse with
    | some (tr, nr) => (String.mk nr.reverse, String.mk tr.reverse)
    | none => (model_full, "latest")
  else (model_full, "latest")

/-! ## Concrete fixtures used to instantiate the theorems -/

/-- A 64-character digest value. -/
def hexA : String := String.mk (List.replicate 64 'a')

/-- Another 64-character digest value. -/
def hexB : String := String.mk (List.replicate 64 'b')

/-- A blob filename of the digest form `sha256:<hex>`. -/
def digA : String := "sha256:" ++ hexA

/-- A concrete stand-in for SHA-256 on the byte strings the fixtures use:
`[1]` hashes to `hexA`, everything else to `hexB`. -/
def haA : List Nat → String := fun c => if c = [1] then hexA else hexB

/-- A remote world with the given manifest-fetch result, every blob fetch
returning `[1]`, a fixed huggingface-cli stdout, and a one-file artifact. -/
def netOf (mf : MFetch) : Net :=
  { manifest := mf
    blob := fun _ => Dl.content [1]
    hfOut := "/r/f.gguf"
    ociFiles := ["m.gguf"]
    ociData := fun _ => [1] }

/-- The remote world whose manifest has one model-content layer. -/
def netW : Net := netOf (MFetch.ok [9] ⟨digA, [⟨digA, "application/vnd.ollama.image.model"⟩]⟩)

/-- A remote world whose artifact pull yields two `.gguf` files. -/
def netAmb : Net :=
  { manifest := MFetch.fail 1
    blob := fun _ => Dl.content [1]
    hfOut := ""
    ociFiles := ["a.gguf", "b.gguf"]
    ociData := fun _ => [1] }

/-- A remote world whose blob download yields bytes `[2]`, which hash to
`hexB` — not the digest `hexA` carried in the blob filename. -/
def netBad : Net :=
  { manifest := MFetch.ok [9] ⟨digA, []⟩
    blob := fun _ => Dl.content [2]
    hfOut := ""
    ociFiles := []
    ociData := fun _ => [] }

/-- A one-file store holding the blob a huggingface pull would link to. -/
def fsHf0 : FS := [(["r", "f.gguf"], Entry.file [1])]

/-- The store after the first huggingface pull of
`huggingface://org/file.gguf` from `fsHf0`. -/
def fsHf1 : FS :=
  [(["s", "models", "huggingface", "org", "file.gguf"],
      Entry.symlink ["..", "..", "..", "..", "r", "f.gguf"]),
    (["s", "models", "huggingface", "org"], Entry.dir),
    (["r", "f.gguf"], Entry.file [1])]

/-- The store after the first Ollama pull of `llama3` from an empty store. -/
def fsOl1 : FS :=
  [(["s", "models", "ollama", "llama3:latest"],
      Entry.symlink ["..", "..", "repos", "ollama", "blobs", digA]),
    (["s", "models", "ollama"], Entry.dir),
    (["s", "repos", "ollama", "blobs", digA], Entry.file [1]),
    (["s", "repos", "ollama", "manifests", "https:", "registry.ollama.ai", "library", "llama3", "latest"],
      Entry.file [9]),
    (["s", "repos", "ollama", "blobs"], Entry.dir),
    (["s", "repos", "ollama", "manifests", "https:", "registry.ollama.ai", "library", "llama3"],
      Entry.dir)]

/-- The store after the first OCI pull of
`oci://registry.acme.org/ns/repo:tag` from an empty store. -/
def fsOci1 : FS :=
  [(["s", "models", "oci", "registry.acme.org", "ns", "repo", "tag", "m.gguf"],
      Entry.symlink ["..", "..", "..", "..", "..", "..", "repos", "oci", "registry.acme.org", "ns", "repo", "tag", "m.gguf"]),
    (["s", "models", "oci", "registry.acme.org", "ns", "repo", "tag"], Entry.dir),
    (["s", "repos", "oci", "registry.acme.org", "ns", "repo", "tag", "m.gguf"], Entry.file [1])]

/-! ## Helper lemmas -/

lemma splitFirstAux_some {c : Char} :
    ∀ {l a b : List Char}, splitFirstAux c l = some (a, b) → l = a ++ c :: b ∧ c ∉ a := by
  intro l
  induction l with
  | nil => intro a b h; simp [splitFirstAux] at h
  | cons x xs ih =>
    intro a b h
    by_cases hx : x = c
    · subst hx
      simp [splitFirstAux] at h
      obtain ⟨ha, hb⟩ := h
      subst ha; subst hb; simp
    · simp [splitFirstAux, hx] at h
      match hrec : splitFirstAux c xs with
      | none => rw [hrec] at h; simp at h
      | some (a2, b2) =>
        rw [hrec] at h
        simp at h
        obtain ⟨ha, hb⟩ := h
        obtain ⟨h1, h2⟩ := ih hrec
        subst ha; subst hb
        refine ⟨by simp [h1], ?_⟩
        intro hmem
        rcases List.mem_cons.mp hmem with hcx | hcx
        · exact hx hcx.symm
        · exact h2 hcx

lemma splitFirstAux_isSome_of_contains {c : Char} :
    ∀ {l : List Char}, l.contains c = true → (splitFirstAux c l).isSome = true := by
  intro l
  induction l with
  | nil => intro h; simp at h
  | cons x xs ih =>
    intro h
    by_cases hx : x = c
    · subst hx; simp [splitFirstAux]
    · have hxs : xs.contains c = true := by
        simp only [List.contains_cons] at h
        rcases Bool.or_eq_true_iff.mp h with h1 | h1
        · exact absurd (beq_iff_eq.mp h1).symm hx
        · exact h1
      have := ih hxs
      simp only [splitFirstAux, if_neg hx]
      match hrec : splitFirstAux c xs with
      | none => rw [hrec] at this; simp at this
      | some (a2, b2) => simp

lemma lookupFS_insert_self (fs : FS) (p : Path) (e : Entry) :
    lookupFS (insertFS p e fs) p = some e := by
  simp [lookupFS, insertFS, List.find?_cons]

lemma lookupFS_insert_ne (fs : FS) (p q : Path) (e : Entry) (h : q ≠ p) :
    lookupFS (insertFS p e fs) q = lookupFS fs q := by
  have hne : ¬((p, e).1 = q) := fun hh => h hh.symm
  simp only [lookupFS, insertFS, List.find?_cons]
  simp [hne]

lemma lookupFS_append_notmem (new fs : FS) (q : Path)
    (h : ∀ x ∈ new, x.1 ≠ q) : lookupFS (new ++ fs) q = lookupFS fs q := by
  simp only [lookupFS, List.find?_append]
  have hn : new.find? (fun e => e.1 = q) = none := by
    rw [List.find?_eq_none]
    intro x hx
    simp [h x hx]
  rw [hn]
  rfl

lemma pexists_of_readFile {fs : FS} {p : Path} {c : List Nat}
    (h : readFileFS fs p = some c) : pexists fs p = true := by
  match h1 : lookupFS fs p with
  | some (Entry.file c2) => simp [pexists, h1]
  | some Entry.dir => simp [readFileFS, h1] at h
  | some (Entry.symlink t) =>
    match h2 : lookupFS fs (resolveP p.dropLast t) with
    | some (Entry.file c2) => simp [pexists, h1, h2]
    | some Entry.dir => simp [readFileFS, h1, h2] at h
    | some (Entry.symlink t2) => simp [readFileFS, h1, h2] at h
    | none => simp [readFileFS, h1, h2] at h
  | none => simp [readFileFS, h1] at h

lemma readFileFS_insert_file_self (fs : FS) (p : Path) (c : List Nat) :
    readFileFS (insertFS p (Entry.file c) fs) p = some c := by
  simp [readFileFS, lookupFS_insert_self]

lemma pexists_insert_file_self (fs : FS) (p : Path) (c : List Nat) :
    pexists (insertFS p (Entry.file c) fs) p = true := by
  simp [pexists, lookupFS_insert_self]


lemma verify_checksum_cases (ha : List Nat → String) (fs : FS) (p : Path) (b hex : String)
    (hlast : p.getLastD "" = b)
    (h1 : pyStartswith b "sha256:" = true)
    (h2 : pySplit b ':' = ["sha256", hex])
    (h3 : hex.length = 64) :
    (pexists fs p = false → verify_checksum ha fs p = VC.ok false)
    ∧ (∀ c, readFileFS fs p = some c →
        verify_checksum ha fs p = VC.ok (decide (ha c = hex))) := by
  constructor
  · intro hp
    dsimp only [verify_checksum]
    rw [if_pos hp]
  · intro c hc
    have hp : pexists fs p = true := pexists_of_readFile hc
    dsimp only [verify_checksum]
    rw [if_neg (by rw [hp]; exact fun hh => by cases hh), hlast,
      if_neg (by rw [h1]; exact fun hh => by cases hh), h2]
    have hg : (["sha256", hex].getD 1 "") = hex := rfl
    rw [hg, if_neg (by rw [h3]; exact fun hh => hh rfl), hc]

lemma lookupFS_of_readlink {fs : FS} {p t : Path}
    (h : readlinkFS fs p = some t) : lookupFS fs p = some (Entry.symlink t) := by
  match h1 : lookupFS fs p with
  | some (Entry.file c) => simp [readlinkFS, h1] at h
  | some Entry.dir => simp [readlinkFS, h1] at h
  | some (Entry.symlink t2) =>
    have ht : t2 = t := by simpa [readlinkFS, h1] using h
    rw [ht]
  | none => simp [readlinkFS, h1] at h

lemma readlinkFS_insert_self (fs : FS) (p t : Path) :
    readlinkFS (insertFS p (Entry.symlink t) fs) p = some t := by
  simp [readlinkFS, lookupFS_insert_self]

lemma makedirs_of_dir {fs : FS} {p : Path} (h : isDirAt fs p = true) :
    makedirs fs p = (fs, []) := by
  simp [makedirs, h]

lemma makedirs_of_not_dir {fs : FS} {p : Path} (h : ¬isDirAt fs p = true) :
    makedirs fs p = (insertFS p Entry.dir fs, [Ev.mkdir p]) := by
  simp [makedirs, h]

lemma layersLoop_skip (ha : List Nat → String) (net : Net)
    (repos models symlink : Path) :
    ∀ ls (fs : FS), (∀ l ∈ ls, l.mediaType ≠ "application/vnd.ollama.image.model") →
      layersLoop ha net repos models symlink ls fs = (Outcome.ok (), fs, []) := by
  intro ls
  induction ls with
  | nil => intro fs _; rfl
  | cons l ls ih =>
    intro fs h
    have hl := h l (List.mem_cons_self l ls)
    have hls := fun x hx => h x (List.mem_cons_of_mem l hx)
    simp only [layersLoop, if_pos hl]
    exact ih fs hls

lemma path_ne_of_len {a b : Path} (h : a.length ≠ b.length) : a ≠ b :=
  fun hh => h (hh ▸ rfl)

lemma AddsOnly_refl (P : Path → Prop) (fs : FS) : AddsOnly P fs fs :=
  ⟨[], rfl, by simp⟩

lemma AddsOnly_trans {P : Path → Prop} {fs fs1 fs2 : FS}
    (h1 : AddsOnly P fs fs1) (h2 : AddsOnly P fs1 fs2) : AddsOnly P fs fs2 := by
  obtain ⟨n1, he1, hp1⟩ := h1
  obtain ⟨n2, he2, hp2⟩ := h2
  refine ⟨n2 ++ n1, by rw [he2, he1, List.append_assoc], ?_⟩
  intro x hx
  rcases List.mem_append.mp hx with hx | hx
  · exact hp2 x hx
  · exact hp1 x hx

lemma AddsOnly_insert {P : Path → Prop} (fs : FS) {q : Path} (e : Entry)
    (h : P q) : AddsOnly P fs (insertFS q e fs) :=
  ⟨[(q, e)], rfl, by simpa using h⟩

lemma AddsOnly_makedirs {P : Path → Prop} (fs : FS) {q : Path}
    (h : P q) : AddsOnly P fs (makedirs fs q).1 := by
  unfold makedirs
  split
  · exact AddsOnly_refl P fs
  · exact AddsOnly_insert fs Entry.dir h

lemma AddsOnly_run_curl {P : Path → Prop} (ha : List Nat → String) (fs : FS)
    (curl : Dl) {q : Path} (h : P q) :
    AddsOnly P fs (run_curl_cmd ha fs curl q).2.1 := by
  unfold run_curl_cmd
  match verify_checksum ha fs q with
  | VC.err e => exact AddsOnly_refl P fs
  | VC.ok true => exact AddsOnly_refl P fs
  | VC.ok false =>
    match curl with
    | Dl.content bytes => exact AddsOnly_insert fs (Entry.file bytes) h
    | Dl.fail rc => exact AddsOnly_refl P fs

lemma AddsOnly_pull_ollama_blob {P : Path → Prop} (ha : List Nat → String)
    (fs : FS) (net : Net) {repos : Path} (d : String) {models symlink : Path}
    (hb : ∀ d2, P (pjoin (repos ++ ["blobs"]) d2)) (hm : P models) (hs : P symlink) :
    AddsOnly P fs (pull_ollama_blob ha fs net repos d models symlink).2.1 := by
  unfold pull_ollama_blob
  rcases hrc : run_curl_cmd ha fs (net.blob d) (pjoin (repos ++ ["blobs"]) d) with ⟨o, fsB, trB⟩
  have hB : AddsOnly P fs fsB := by
    have := AddsOnly_run_curl ha fs (net.blob d) (hb d)
    rwa [hrc] at this
  simp only [hrc]
  match o with
  | Outcome.ok _ =>
    exact AddsOnly_trans hB (AddsOnly_trans (AddsOnly_makedirs fsB hm)
      (AddsOnly_insert _ _ hs))
  | Outcome.exit c m => exact hB
  | Outcome.raised e => exact hB

lemma AddsOnly_layersLoop {P : Path → Prop} (ha : List Nat → String)
    (net : Net) {repos models symlink : Path}
    (hb : ∀ d2, P (pjoin (repos ++ ["blobs"]) d2)) (hm : P models) (hs : P symlink) :
    ∀ (ls : List Layer) (fs : FS),
      AddsOnly P fs (layersLoop ha net repos models symlink ls fs).2.1 := by
  intro ls
  induction ls with
  | nil => intro fs; exact AddsOnly_refl P fs
  | cons l ls ih =>
    intro fs
    by_cases hmt : l.mediaType ≠ "application/vnd.ollama.image.model"
    · simp only [layersLoop, if_pos hmt]
      exact ih fs
    · simp only [layersLoop, if_neg hmt]
      rcases hpb : pull_ollama_blob ha fs net repos l.digest models symlink with ⟨o, fsB, trB⟩
      have hB : AddsOnly P fs fsB := by
        have := AddsOnly_pull_ollama_blob ha fs net l.digest hb hm hs
        rwa [hpb] at this
      match o with
      | Outcome.ok _ =>
        rcases hll : layersLoop ha net repos models symlink ls fsB with ⟨o2, fs2, tr2⟩
        have h2 : AddsOnly P fsB fs2 := by
          have := ih fsB
          rwa [hll] at this
        dsimp only
        rw [hll]
        exact AddsOnly_trans hB h2
      | Outcome.exit c m => exact hB
      | Outcome.raised e => exact hB

lemma init_pull_ok {P : Path → Prop} {ha : List Nat → String} {fs : FS} {net : Net}
    {repos manifests : Path} {tag : String} {models symlink : Path} {model : String}
    {q : Path} {fs' : FS} {tr : List Ev}
    (h : init_pull ha fs net repos manifests tag models symlink model = (Outcome.ok q, fs', tr))
    (h1 : P manifests.dropLast) (h2 : P (repos ++ ["blobs"])) (h3 : P manifests)
    (hb : ∀ d2, P (pjoin (repos ++ ["blobs"]) d2)) (hm : P models) (hs : P symlink) :
    q = symlink ∧ AddsOnly P fs fs' := by
  rcases hmk1 : makedirs fs manifests.dropLast with ⟨fs1, ev1⟩
  rcases hmk2 : makedirs fs1 (repos ++ ["blobs"]) with ⟨fs2, ev2⟩
  have hA1 : AddsOnly P fs fs1 := by
    have := AddsOnly_makedirs fs (q := manifests.dropLast) h1
    rwa [hmk1] at this
  have hA2 : AddsOnly P fs1 fs2 := by
    have := AddsOnly_makedirs fs1 (q := repos ++ ["blobs"]) h2
    rwa [hmk2] at this
  simp only [init_pull, hmk1, hmk2] at h
  match hman : net.manifest with
  | MFetch.fail rc => simp only [hman] at h; simp at h
  | MFetch.ok bytes md =>
    simp only [hman] at h
    have hA3 : AddsOnly P fs2 (insertFS manifests (Entry.file bytes) fs2) :=
      AddsOnly_insert fs2 (Entry.file bytes) h3
    rcases hrc : run_curl_cmd ha (insertFS manifests (Entry.file bytes) fs2)
        (net.blob md.configDigest) (pjoin (repos ++ ["blobs"]) md.configDigest)
        with ⟨o4, fs4, ev4⟩
    have hA4 : AddsOnly P (insertFS manifests (Entry.file bytes) fs2) fs4 := by
      have := AddsOnly_run_curl ha (insertFS manifests (Entry.file bytes) fs2)
        (net.blob md.configDigest) (hb md.configDigest)
      rwa [hrc] at this
    simp only [hrc] at h
    match o4 with
    | Outcome.exit c m => simp at h
    | Outcome.raised e => simp at h
    | Outcome.ok _ =>
      rcases hll : layersLoop ha net repos models symlink md.layers fs4 with ⟨o5, fs5, ev5⟩
      have hA5 : AddsOnly P fs4 fs5 := by
        have := AddsOnly_layersLoop ha net hb hm hs md.layers fs4
        rwa [hll] at this
      simp only [hll] at h
      match o5 with
      | Outcome.exit c m => simp at h
      | Outcome.raised e => simp at h
      | Outcome.ok _ =>
        simp only [Prod.mk.injEq] at h
        obtain ⟨hq, hfs, _⟩ := h
        refine ⟨(Outcome.ok.injEq .. ▸ hq.symm).symm ▸ rfl, ?_⟩
        rw [← hfs]
        exact AddsOnly_trans hA1 (AddsOnly_trans hA2 (AddsOnly_trans hA3
          (AddsOnly_trans hA4 hA5)))

lemma globMatch_store (store mc l : Path) :
    globMatch store mc (store ++ l) = true
      ↔ (l.length = 2 + mc.length ∧ l.getD 0 "" = "models" ∧ l.drop 2 = mc) := by
  unfold globMatch
  rw [decide_eq_true_eq]
  have hlen : (store ++ l).length = store.length + l.length := List.length_append store l
  have htake : (store ++ l).take store.length = store := List.take_left store l
  have hget : (store ++ l).getD store.length "" = l.getD 0 "" := by
    rw [List.getD_append_right store l "" store.length (le_refl store.length)]
    simp
  have hdrop : (store ++ l).drop (store.length + 2) = l.drop 2 := by
    rw [List.drop_append]
  constructor
  · rintro ⟨a1, _, a3, a4⟩
    rw [hlen] at a1
    rw [hget] at a3
    rw [hdrop] at a4
    exact ⟨by omega, a3, a4⟩
  · rintro ⟨a1, a2, a3⟩
    refine ⟨by rw [hlen]; omega, htake, by rw [hget]; exact a2, by rw [hdrop]; exact a3⟩

lemma globMatch_false_len {store mc l : Path} (h : l.length ≠ 2 + mc.length) :
    globMatch store mc (store ++ l) = false := by
  cases hb : globMatch store mc (store ++ l) with
  | false => rfl
  | true => exact absurd ((globMatch_store store mc l).mp hb).1 h

lemma globMatch_false_head {store mc : Path} {a : String} {rest : List String}
    (h : a ≠ "models") : globMatch store mc (store ++ a :: rest) = false := by
  cases hb : globMatch store mc (store ++ a :: rest) with
  | false => rfl
  | true => exact absurd ((globMatch_store store mc (a :: rest)).mp hb).2.1 h

lemma globMatch_false_drop {store mc : Path} {x y : String} {rest : List String}
    (h : rest ≠ mc) : globMatch store mc (store ++ x :: y :: rest) = false := by
  cases hb : globMatch store mc (store ++ x :: y :: rest) with
  | false => rfl
  | true => exact absurd ((globMatch_store store mc (x :: y :: rest)).mp hb).2.2 h

lemma globFirst_AddsOnly {store mc : Path} {fs fs' : FS}
    (h : AddsOnly (fun k => globMatch store mc k = false) fs fs') :
    globFirst fs' store mc = globFirst fs store mc := by
  obtain ⟨new, he, hp⟩ := h
  subst he
  simp only [globFirst, List.filter_append]
  have : new.filter (fun e => globMatch store mc e.1) = [] := by
    rw [List.filter_eq_nil_iff]
    intro x hx
    simp [hp x hx]
  rw [this]
  rfl

lemma pexists_true_append_files {new fs : FS} {pkey : Path}
    (hfile : ∀ x ∈ new, ∃ c, x.2 = Entry.file c)
    (hnot : ∀ x ∈ new, x.1 ≠ pkey)
    (hp : pexists fs pkey = true) : pexists (new ++ fs) pkey = true := by
  have hlk : lookupFS (new ++ fs) pkey = lookupFS fs pkey :=
    lookupFS_append_notmem new fs pkey hnot
  match h1 : lookupFS fs pkey with
  | some (Entry.file c) => simp [pexists, hlk, h1]
  | some Entry.dir => simp [pexists, hlk, h1]
  | none => simp [pexists, h1] at hp
  | some (Entry.symlink t) =>
    have hres : lookupFS (new ++ fs) (resolveP pkey.dropLast t)
        = lookupFS fs (resolveP pkey.dropLast t)
        ∨ ∃ c, lookupFS (new ++ fs) (resolveP pkey.dropLast t) = some (Entry.file c) := by
      simp only [lookupFS, List.find?_append]
      match hf : new.find? (fun e => e.1 = resolveP pkey.dropLast t) with
      | none => left; rw [hf]; simp
      | some x =>
        right
        obtain ⟨c, hc⟩ := hfile x (List.mem_of_find?_eq_some hf)
        refine ⟨c, ?_⟩
        rw [hf]
        simp [hc]
    rcases hres with hres | ⟨c, hres⟩
    · simp only [pexists, hlk, h1, hres]
      simp only [pexists, h1] at hp
      exact hp
    · simp [pexists, hlk, h1, hres]

lemma makedirs_ev_cases {fs fs' : FS} {p : Path} {ev : List Ev}
    (h : makedirs fs p = (fs', ev)) : ev = [] ∨ ev = [Ev.mkdir p] := by
  unfold makedirs at h
  split at h
  · exact Or.inl (Prod.mk.injEq .. ▸ h).2.symm
  · exact Or.inr (Prod.mk.injEq .. ▸ h).2.symm

lemma makedirs_fs_cases {fs fs' : FS} {p : Path} {ev : List Ev}
    (h : makedirs fs p = (fs', ev)) : fs' = fs ∨ fs' = insertFS p Entry.dir fs := by
  unfold makedirs at h
  split at h
  · exact Or.inl (Prod.mk.injEq .. ▸ h).1.symm
  · exact Or.inr (Prod.mk.injEq .. ▸ h).1.symm

lemma path_append_ne_of_head {store : Path} {a b : String} {r1 r2 : List String}
    (h : a ≠ b) : store ++ a :: r1 ≠ store ++ b :: r2 := by
  intro hh
  have h2 := List.append_cancel_left hh
  rw [List.cons_eq_cons] at h2
  exact h h2.1

end Ramalama

namespace Ramalama

/-! ## C5: Ollama reference resolution -/

/-- C5 counterexample: the claim says the resolver splits name from tag at
the LAST `:`; the code (`model_full.split(':', 1)`, ramalama.py:312) splits at
the FIRST `:`.  On the reference `a:b:c` the code yields tag `b:c`, while a
last-`:` split would yield tag `c`. -/
theorem C5_counterexample :
    ollama_name_tag "a:b:c" ≠ ollama_name_tag_lastsplit "a:b:c"
    ∧ ollama_name_tag "a:b:c" = ("library/a", "b:c")
    ∧ ollama_name_tag_lastsplit "a:b:c" = ("library/a:b", "c") := by
  refine ⟨by decide, by decide, by decide⟩

/-- C5 (amended): for every Ollama-scheme reference string, the resolver
defaults the namespace to `library` when no `/` is present, defaults the tag
to `latest` when no `:` is present, and otherwise splits name from tag at the
FIRST `:`: the returned name contains no `:` and name ++ ":" ++ tag
reconstructs the (namespace-defaulted) reference.  The spec's two examples
resolve as stated. -/
theorem C5_amended :
    (∀ m : String,
      pyContains (if pyContains m '/' then m else "library/" ++ m) ':' = false →
      ollama_name_tag m = ((if pyContains m '/' then m else "library/" ++ m), "latest"))
    ∧ (∀ m : String,
      pyContains (if pyContains m '/' then m else "library/" ++ m) ':' = true →
      ∃ a b : List Char,
        (if pyContains m '/' then m else "library/" ++ m).data = a ++ ':' :: b
        ∧ ':' ∉ a
        ∧ ollama_name_tag m = (String.mk a, String.mk b))
    ∧ ollama_name_tag "llama3" = ("library/llama3", "latest")
    ∧ ollama_name_tag "myorg/llama3:8b" = ("myorg/llama3", "8b") := by
  refine ⟨?_, ?_, by decide, by decide⟩
  · intro m h
    simp [ollama_name_tag, h]
  · intro m h
    have hs := splitFirstAux_isSome_of_contains (c := ':')
      (l := (if pyContains m '/' then m else "library/" ++ m).data) h
    match hsp : splitFirstAux ':' (if pyContains m '/' then m else "library/" ++ m).data with
    | none => rw [hsp] at hs; simp at hs
    | some (a, b) =>
      obtain ⟨h1, h2⟩ := splitFirstAux_some hsp
      refine ⟨a, b, h1, h2, ?_⟩
      simp [ollama_name_tag, h, hsp]

/-- C5 witness: the amended theorem applied at the references `llama3`
(no-colon default) and `a:b:c` (first-colon split). -/
theorem C5_amended_witness :
    ollama_name_tag "llama3" = ((if pyContains "llama3" '/' then "llama3" else "library/" ++ "llama3"), "latest")
    ∧ ∃ a b : List Char,
        (if pyContains "a:b:c" '/' then "a:b:c" else "library/" ++ "a:b:c").data = a ++ ':' :: b
        ∧ ':' ∉ a
        ∧ ollama_name_tag "a:b:c" = (String.mk a, String.mk b) :=
  ⟨C5_amended.1 "llama3" (by decide), C5_amended.2.1 "a:b:c" (by decide)⟩

/-! ## C6: OCI reference validation -/

/-- C6: the claim (and the code's own diagnostic, which names exactly the
form `oci://registry.acme.org/ns/repo:tag`) says every undotted-host
reference is rejected with the InvalidReference error
(`print_error` + `sys.exit(1)`, ramalama.py:336-337).  For `oci://repo:tag`
the tuple unpacking `registry, reference = target.split('/', 1)`
(ramalama.py:334) raises an uncaught ValueError before the dot check is
reached; a dotted reference is accepted and an undotted reference that does
contain a `/` does get the InvalidReference exit. -/
theorem C6_behavior :
    oci_target_decompose "oci://repo:tag" = Outcome.raised "ValueError: not enough values to unpack"
    ∧ oci_target_decompose "oci://registry.acme.org/ns/repo:tag"
      = Outcome.ok ("registry.acme.org/ns/repo:tag", "registry.acme.org", "ns/repo:tag", "ns/repo/tag")
    ∧ oci_target_decompose "oci://noreg/ns/repo"
      = Outcome.exit 1 (some ("You must specify a registry for the model in the form oci://registry.acme.org/ns/repo:tag, got instead: " ++ "oci://noreg/ns/repo")) := by
  refine ⟨by decide, by decide, ?_⟩
  decide

/-! ## C8: URL identifier extraction -/

/-- C8 counterexample: the claim restricts the `resolve` rewrite to
organization paths whose FIRST segment IS the Hugging Face registry host; the
code (ramalama/url.py:42) only checks
`HuggingfaceRepository.REGISTRY_URL.endswith(parts[0])`.  For the organization
`co/resolve/v` the first segment `co` is not the registry host, so by the
claim the base identifiers should be returned unchanged, yet the code rewrites
tag and organization. -/
theorem C8_counterexample :
    extract_model_identifiers ("n", "t", "co/resolve/v") = ("n", "v", "co")
    ∧ extract_model_identifiers ("n", "t", "co/resolve/v") ≠ ("n", "t", "co/resolve/v")
    ∧ "co" ≠ "huggingface.co" := by
  refine ⟨by decide, by decide, by decide⟩

/-- C8 (amended): with `parts` the `/`-split of the base organization, the
extractor returns the last segment as tag and the preceding segments joined by
`/` as organization whenever `parts` has more than two segments and its
second-to-last segment is `blob`, or is `resolve` while the Hugging Face
registry URL ENDS WITH the first segment; in all other cases the base
identifiers are returned unchanged, and the name always passes through. -/
theorem C8_amended (name tag org : String) :
    (((pySplit org '/').length > 2 ∧ (pySplit org '/').getD ((pySplit org '/').length - 2) "" = "blob") →
      extract_model_identifiers (name, tag, org)
        = (name, (pySplit org '/').getLastD "",
            String.intercalate "/" ((pySplit org '/').dropLast.dropLast)))
    ∧ (((pySplit org '/').length > 2
        ∧ pyEndswith REGISTRY_URL ((pySplit org '/').getD 0 "") = true
        ∧ (pySplit org '/').getD ((pySplit org '/').length - 2) "" = "resolve") →
      extract_model_identifiers (name, tag, org)
        = (name, (pySplit org '/').getLastD "",
            String.intercalate "/" ((pySplit org '/').dropLast.dropLast)))
    ∧ ((¬((pySplit org '/').length > 2 ∧ (pySplit org '/').getD ((pySplit org '/').length - 2) "" = "blob")
        ∧ ¬((pySplit org '/').length > 2
            ∧ pyEndswith REGISTRY_URL ((pySplit org '/').getD 0 "") = true
            ∧ (pySplit org '/').getD ((pySplit org '/').length - 2) "" = "resolve")) →
      extract_model_identifiers (name, tag, org) = (name, tag, org)) := by
  refine ⟨?_, ?_, ?_⟩
  · rintro ⟨h1, h2⟩
    have hne : ¬((pySplit org '/').length > 2
        ∧ pyEndswith REGISTRY_URL ((pySplit org '/').getD 0 "") = true
        ∧ (pySplit org '/').getD ((pySplit org '/').length - 2) "" = "resolve") :=
      fun hr => absurd (h2.symm.trans hr.2.2) (by decide)
    dsimp only [extract_model_identifiers]
    rw [if_neg hne, if_pos ⟨h1, h2⟩]
  · rintro ⟨h1, h2, h3⟩
    dsimp only [extract_model_identifiers]
    rw [if_pos ⟨h1, h2, h3⟩]
  · rintro ⟨h1, h2⟩
    dsimp only [extract_model_identifiers]
    rw [if_neg h2, if_neg h1]

/-- C8 witness: the amended theorem applied at a `blob`-shaped organization, a
`resolve`-shaped one with the true registry host, and a non-matching one. -/
theorem C8_amended_witness :
    extract_model_identifiers ("n", "t", "host/org/blob/main") = ("n", "main", "host/org")
    ∧ extract_model_identifiers ("n", "t", "huggingface.co/org/repo/resolve/v1") = ("n", "v1", "huggingface.co/org/repo")
    ∧ extract_model_identifiers ("n", "t", "a/b") = ("n", "t", "a/b") := by
  refine ⟨?_, ?_, ?_⟩
  · have h := (C8_amended "n" "t" "host/org/blob/main").1 (by constructor <;> decide)
    rw [h]; decide
  · have h := (C8_amended "n" "t" "huggingface.co/org/repo/resolve/v1").2.1
      (by refine ⟨by decide, by decide, by decide⟩)
    rw [h]; decide
  · exact (C8_amended "n" "t" "a/b").2.2 (by constructor <;> decide)

/-! ## C2: checksum-gated fetch -/

/-- C2: `run_curl_cmd` skips the network entirely — returns with the
filesystem untouched and an empty action trace — exactly when the destination
already exists and its content hash equals the 64-character digest embedded in
the destination's own `sha256:<hex>` basename; whenever that check fails, the
download command is invoked. -/
theorem C2_fetch_skip_iff (ha : List Nat → String) (fs : FS) (curl : Dl) (p : Path)
    (b hex : String)
    (hlast : p.getLastD "" = b)
    (h1 : pyStartswith b "sha256:" = true)
    (h2 : pySplit b ':' = ["sha256", hex])
    (h3 : hex.length = 64)
    (hread : pexists fs p = true → (readFileFS fs p).isSome = true) :
    (run_curl_cmd ha fs curl p = (Outcome.ok (), fs, [])
      ↔ pexists fs p = true ∧ (readFileFS fs p).map ha = some hex)
    ∧ (¬(pexists fs p = true ∧ (readFileFS fs p).map ha = some hex) →
        (run_curl_cmd ha fs curl p).2.2 = [Ev.fetch p]) := by
  obtain ⟨v1, v2⟩ := verify_checksum_cases ha fs p b hex hlast h1 h2 h3
  constructor
  · constructor
    · intro hrun
      by_cases hp : pexists fs p = true
      · obtain ⟨c, hc⟩ := Option.isSome_iff_exists.mp (hread hp)
        by_cases hd : ha c = hex
        · exact ⟨hp, by rw [hc]; simp [hd]⟩
        · exfalso
          have hv := v2 c hc
          rw [decide_eq_false hd] at hv
          cases curl with
          | content bytes => simp [run_curl_cmd, hv] at hrun
          | fail rc => simp [run_curl_cmd, hv] at hrun
      · exfalso
        have hp0 : pexists fs p = false := by simpa using hp
        have hv := v1 hp0
        cases curl with
        | content bytes => simp [run_curl_cmd, hv] at hrun
        | fail rc => simp [run_curl_cmd, hv] at hrun
    · rintro ⟨hp, hm⟩
      obtain ⟨c, hc, hd⟩ := Option.map_eq_some'.mp hm
      have hv := v2 c hc
      rw [decide_eq_true hd] at hv
      simp [run_curl_cmd, hv]
  · intro hnot
    by_cases hp : pexists fs p = true
    · obtain ⟨c, hc⟩ := Option.isSome_iff_exists.mp (hread hp)
      by_cases hd : ha c = hex
      · exact absurd ⟨hp, by rw [hc]; simp [hd]⟩ hnot
      · have hv := v2 c hc
        rw [decide_eq_false hd] at hv
        cases curl with
        | content bytes => simp [run_curl_cmd, hv]
        | fail rc => simp [run_curl_cmd, hv]
    · have hp0 : pexists fs p = false := by simpa using hp
      have hv := v1 hp0
      cases curl with
      | content bytes => simp [run_curl_cmd, hv]
      | fail rc => simp [run_curl_cmd, hv]

/-- C2 witness: the theorem applied at a store that already holds the blob
`sha256:<hexA>` with matching content. -/
theorem C2_fetch_skip_iff_witness :
    (run_curl_cmd haA [([digA], Entry.file [1])] (Dl.content [5]) [digA]
        = (Outcome.ok (), [([digA], Entry.file [1])], [])
      ↔ pexists [([digA], Entry.file [1])] [digA] = true
        ∧ (readFileFS [([digA], Entry.file [1])] [digA]).map haA = some hexA)
    ∧ (¬(pexists [([digA], Entry.file [1])] [digA] = true
          ∧ (readFileFS [([digA], Entry.file [1])] [digA]).map haA = some hexA) →
        (run_curl_cmd haA [([digA], Entry.file [1])] (Dl.content [5]) [digA]).2.2
          = [Ev.fetch [digA]]) :=
  C2_fetch_skip_iff haA [([digA], Entry.file [1])] (Dl.content [5]) [digA] digA hexA
    (by decide) (by decide) (by decide) (by decide) (by decide)

/-! ## C3: post-download integrity -/

/-- C3 counterexample: the claim says a hash/digest mismatch after a completed
download is detected and fatal, and that a mismatched blob is never published.
Here the download completes (a fetch event for the blob path is in the trace),
the downloaded bytes hash to `hexB` while the filename digest is `hexA`, yet
`pull_ollama_blob` returns success and publishes the symlink to the mismatched
blob. -/
theorem C3_counterexample :
    (pull_ollama_blob haA [] netBad ["s", "repos", "ollama"] digA
        ["s", "models", "ollama"] ["s", "models", "ollama", "m:latest"]).1 = Outcome.ok ()
    ∧ Ev.fetch ["s", "repos", "ollama", "blobs", digA]
        ∈ (pull_ollama_blob haA [] netBad ["s", "repos", "ollama"] digA
            ["s", "models", "ollama"] ["s", "models", "ollama", "m:latest"]).2.2
    ∧ readlinkFS (pull_ollama_blob haA [] netBad ["s", "repos", "ollama"] digA
          ["s", "models", "ollama"] ["s", "models", "ollama", "m:latest"]).2.1
        ["s", "models", "ollama", "m:latest"]
        = some (relpath ["s", "repos", "ollama", "blobs", digA] ["s", "models", "ollama"])
    ∧ (readFileFS (pull_ollama_blob haA [] netBad ["s", "repos", "ollama"] digA
          ["s", "models", "ollama"] ["s", "models", "ollama", "m:latest"]).2.1
        ["s", "repos", "ollama", "blobs", digA]).map haA ≠ some hexA := by
  refine ⟨by decide, by decide, by decide, by decide⟩

/-- C3 (amended): after a download completes, no integrity check is performed:
`run_curl_cmd` returns success with the fetched bytes written, whatever their
hash; when the written bytes do not hash to the filename digest, the mismatch
is only detected by the pre-download check of the NEXT fetch of that
destination, which then re-invokes the download command. -/
theorem C3_amended (ha : List Nat → String) (fs : FS) (p : Path) (b hex : String)
    (bytes : List Nat) (curl2 : Dl)
    (hlast : p.getLastD "" = b)
    (h1 : pyStartswith b "sha256:" = true)
    (h2 : pySplit b ':' = ["sha256", hex])
    (h3 : hex.length = 64)
    (hnc : verify_checksum ha fs p = VC.ok false) :
    run_curl_cmd ha fs (Dl.content bytes) p
      = (Outcome.ok (), insertFS p (Entry.file bytes) fs, [Ev.fetch p])
    ∧ (ha bytes ≠ hex →
        verify_checksum ha (insertFS p (Entry.file bytes) fs) p = VC.ok false
        ∧ (run_curl_cmd ha (insertFS p (Entry.file bytes) fs) curl2 p).2.2 = [Ev.fetch p]) := by
  refine ⟨by simp [run_curl_cmd, hnc], ?_⟩
  intro hd
  have hv := (verify_checksum_cases ha (insertFS p (Entry.file bytes) fs) p b hex
    hlast h1 h2 h3).2 bytes (readFileFS_insert_file_self fs p bytes)
  rw [decide_eq_false hd] at hv
  refine ⟨hv, ?_⟩
  cases curl2 with
  | content b2 => simp [run_curl_cmd, hv]
  | fail rc => simp [run_curl_cmd, hv]

/-- C3 witness: the amended theorem applied at an empty store with a download
delivering bytes `[2]`, which hash to `hexB` and not to the filename digest
`hexA`. -/
theorem C3_amended_witness :
    run_curl_cmd haA [] (Dl.content [2]) [digA]
      = (Outcome.ok (), insertFS [digA] (Entry.file [2]) [], [Ev.fetch [digA]])
    ∧ (haA [2] ≠ hexA →
        verify_checksum haA (insertFS [digA] (Entry.file [2]) []) [digA] = VC.ok false
        ∧ (run_curl_cmd haA (insertFS [digA] (Entry.file [2]) []) (Dl.content [3]) [digA]).2.2
          = [Ev.fetch [digA]]) :=
  C3_amended haA [] [digA] digA hexA [2] (Dl.content [3])
    (by decide) (by decide) (by decide) (by decide) (by decide)

lemma init_pull_fail (ha : List Nat → String) (fs : FS) (net : Net)
    (repos manifests : Path) (tag : String) (models symlink : Path) (model : String)
    (rc : Int) (hm : net.manifest = MFetch.fail rc) :
    (init_pull ha fs net repos manifests tag models symlink model).1
      = Outcome.exit rc (if rc = 22 then some (model ++ ":" ++ tag ++ " not found") else none) := by
  rcases hmk1 : makedirs fs manifests.dropLast with ⟨fs1, ev1⟩
  rcases hmk2 : makedirs fs1 (repos ++ ["blobs"]) with ⟨fs2, ev2⟩
  simp [init_pull, hmk1, hmk2, hm]

/-! ## C4: not-found mapping -/

/-- C4: when the manifest fetch fails with curl return code `rc` the whole
pull aborts via `sys.exit(rc)` — for the not-found code 22 with the message
`{model}:{tag} not found`, silently for any other code; in particular pulling
`ollama://doesnotexist` against a remote that answers 22 exits with code 22
and the message `doesnotexist:latest not found`. -/
theorem C4_not_found_abort :
    (∀ (ha : List Nat → String) (fs : FS) (net : Net) (repos manifests : Path)
      (tag : String) (models symlink : Path) (model : String) (rc : Int),
      net.manifest = MFetch.fail rc → rc ≠ 0 →
      (init_pull ha fs net repos manifests tag models symlink model).1
        = Outcome.exit rc (if rc = 22 then some (model ++ ":" ++ tag ++ " not found") else none)
      ∧ rc ≠ 0)
    ∧ (∀ (ha : List Nat → String) (fs : FS) (net : Net) (store : Path),
      net.manifest = MFetch.fail 22 →
      globFirst fs store (strComps "ollama://doesnotexist") = none →
      pexists fs (store ++ ["models", "ollama", "doesnotexist:latest"]) = false →
      (pull_cli ha fs net store "ollama://doesnotexist").1
        = Outcome.exit 22 (some "doesnotexist:latest not found")) := by
  refine ⟨fun ha fs net repos manifests tag models symlink model rc hm h0 =>
    ⟨init_pull_fail ha fs net repos manifests tag models symlink model rc hm, h0⟩, ?_⟩
  intro ha fs net store hm hg hp
  have hmsg := init_pull_fail ha fs net (store ++ ["repos", "ollama"])
    (pjoin (pjoin (pjoin ((store ++ ["repos", "ollama"]) ++ ["manifests"])
      "https://registry.ollama.ai") "library/doesnotexist") "latest")
    "latest" (store ++ ["models", "ollama"])
    (pjoin (store ++ ["models", "ollama"]) ("doesnotexist" ++ ":" ++ "latest"))
    "doesnotexist" 22 hm
  have hps : pexists fs (pjoin (store ++ ["models", "ollama"]) ("doesnotexist" ++ ":" ++ "latest")) = false := by
    have : pjoin (store ++ ["models", "ollama"]) ("doesnotexist" ++ ":" ++ "latest")
        = store ++ ["models", "ollama", "doesnotexist:latest"] := by
      show (store ++ ["models", "ollama"]) ++ strComps ("doesnotexist" ++ ":" ++ "latest")
        = store ++ ["models", "ollama", "doesnotexist:latest"]
      rw [List.append_assoc]
      rfl
    rw [this]
    exact hp
  simp only [pull_cli, hg]
  rw [if_neg (by decide), if_neg (by decide)]
  have hstrip : stripPrefixStr "ollama://" "ollama://doesnotexist" = "doesnotexist" := by decide
  have hnt : ollama_name_tag "doesnotexist" = ("library/doesnotexist", "latest") := by decide
  have hbase : pyBasenameStr "library/doesnotexist" = "doesnotexist" := by decide
  rw [hstrip, hnt]
  dsimp only
  rw [hbase, if_neg (by rw [hps]; exact fun hh => by cases hh)]
  rw [hmsg]
  rfl

/-- C4 witness: the theorem's two parts applied at a remote failing with 22
and, for the general part, also at a remote failing with 7. -/
theorem C4_not_found_abort_witness :
    ((init_pull haA [] (netOf (MFetch.fail 7)) ["s", "repos", "ollama"]
        ["s", "m"] "latest" ["s", "models", "ollama"] ["s", "sym"] "doesnotexist").1
      = Outcome.exit 7 (if (7 : Int) = 22 then some ("doesnotexist" ++ ":" ++ "latest" ++ " not found") else none)
      ∧ (7 : Int) ≠ 0)
    ∧ (pull_cli haA [] (netOf (MFetch.fail 22)) ["s"] "ollama://doesnotexist").1
      = Outcome.exit 22 (some "doesnotexist:latest not found") :=
  ⟨(C4_not_found_abort.1 haA [] (netOf (MFetch.fail 7)) ["s", "repos", "ollama"]
      ["s", "m"] "latest" ["s", "models", "ollama"] ["s", "sym"] "doesnotexist" 7
      (by decide) (by decide)),
    C4_not_found_abort.2 haA [] (netOf (MFetch.fail 22)) ["s"]
      (by decide) (by decide) (by decide)⟩

/-! ## C7: OCI artifact ambiguity -/

/-- C7: after the OCI artifact pull, an output directory with zero or more
than one `.gguf` file makes `pull_oci` exit fatally with code `-1`, touching
nothing but the artifact directory (no mkdir, no symlink — the trace holds
only the artifact pull, and the models namespace is untouched because the
written paths all live under `repos/oci`); with exactly one `.gguf` file the
symlink to it is published. -/
theorem C7_oci_ambiguity (ha : List Nat → String) (fs : FS) (net : Net) (store : Path) :
    ((net.ociFiles.filter fun f => pyEndswith f ".gguf").length ≠ 1 →
      pull_oci ha fs net store "oci://registry.acme.org/ns/repo:tag"
        = (Outcome.exit (-1) (some ("Error: Unable to identify .gguf file in: "
              ++ pathStr (store ++ ["repos", "oci", "registry.acme.org", "ns", "repo", "tag"]))),
            (net.ociFiles.map fun f =>
              (pjoin (store ++ ["repos", "oci", "registry.acme.org", "ns", "repo", "tag"]) f,
                Entry.file (net.ociData f))) ++ fs,
            [Ev.extPull (store ++ ["repos", "oci", "registry.acme.org", "ns", "repo", "tag"])]))
    ∧ (∀ g, (net.ociFiles.filter fun f => pyEndswith f ".gguf") = [g] →
        (pull_oci ha fs net store "oci://registry.acme.org/ns/repo:tag").1
          = Outcome.ok (pjoin (store ++ ["models", "oci", "registry.acme.org", "ns", "repo", "tag"]) g)
        ∧ lookupFS (pull_oci ha fs net store "oci://registry.acme.org/ns/repo:tag").2.1
            (pjoin (store ++ ["models", "oci", "registry.acme.org", "ns", "repo", "tag"]) g)
          = some (Entry.symlink (relpath
              (pjoin (store ++ ["repos", "oci", "registry.acme.org", "ns", "repo", "tag"]) g)
              ((pjoin (store ++ ["models", "oci", "registry.acme.org", "ns", "repo", "tag"]) g).dropLast)))) := by
  have hdec : oci_target_decompose "oci://registry.acme.org/ns/repo:tag"
      = Outcome.ok ("registry.acme.org/ns/repo:tag", "registry.acme.org", "ns/repo:tag", "ns/repo/tag") := by
    decide
  have hr1 : strComps "registry.acme.org" = ["registry.acme.org"] := by decide
  have hr2 : strComps "ns/repo/tag" = ["ns", "repo", "tag"] := by decide
  have ho : pjoin (pjoin (store ++ ["repos", "oci"]) "registry.acme.org") "ns/repo/tag"
      = store ++ ["repos", "oci", "registry.acme.org", "ns", "repo", "tag"] := by
    simp [pjoin, hr1, hr2]
  have hm : pjoin (pjoin (store ++ ["models", "oci"]) "registry.acme.org") "ns/repo/tag"
      = store ++ ["models", "oci", "registry.acme.org", "ns", "repo", "tag"] := by
    simp [pjoin, hr1, hr2]
  constructor
  · intro hlen
    simp only [pull_oci, hdec, ho, hm]
    rw [if_pos hlen]
  · intro g hg
    have hlen : ¬((net.ociFiles.filter fun f => pyEndswith f ".gguf").length ≠ 1) := by
      rw [hg]; simp
    simp only [pull_oci, hdec, ho, hm]
    rw [if_neg hlen, hg]
    simp only [List.getD_cons_zero]
    by_cases hdir : isDirAt ((net.ociFiles.map fun f =>
        (pjoin (store ++ ["repos", "oci", "registry.acme.org", "ns", "repo", "tag"]) f,
          Entry.file (net.ociData f))) ++ fs)
        (store ++ ["models", "oci", "registry.acme.org", "ns", "repo", "tag"]) = true
    · rw [makedirs_of_dir hdir]
      by_cases hguard : pexists ((net.ociFiles.map fun f =>
            (pjoin (store ++ ["repos", "oci", "registry.acme.org", "ns", "repo", "tag"]) f,
              Entry.file (net.ociData f))) ++ fs)
            (pjoin (store ++ ["models", "oci", "registry.acme.org", "ns", "repo", "tag"]) g) = true
          ∧ readlinkFS ((net.ociFiles.map fun f =>
            (pjoin (store ++ ["repos", "oci", "registry.acme.org", "ns", "repo", "tag"]) f,
              Entry.file (net.ociData f))) ++ fs)
            (pjoin (store ++ ["models", "oci", "registry.acme.org", "ns", "repo", "tag"]) g)
            = some (relpath
                (pjoin (store ++ ["repos", "oci", "registry.acme.org", "ns", "repo", "tag"]) g)
                ((pjoin (store ++ ["models", "oci", "registry.acme.org", "ns", "repo", "tag"]) g).dropLast))
      · rw [if_pos hguard]
        exact ⟨rfl, lookupFS_of_readlink hguard.2⟩
      · rw [if_neg hguard]
        exact ⟨rfl, lookupFS_insert_self ..⟩
    · rw [makedirs_of_not_dir hdir]
      by_cases hguard : pexists (insertFS
            (store ++ ["models", "oci", "registry.acme.org", "ns", "repo", "tag"]) Entry.dir
            ((net.ociFiles.map fun f =>
              (pjoin (store ++ ["repos", "oci", "registry.acme.org", "ns", "repo", "tag"]) f,
                Entry.file (net.ociData f))) ++ fs))
            (pjoin (store ++ ["models", "oci", "registry.acme.org", "ns", "repo", "tag"]) g) = true
          ∧ readlinkFS (insertFS
            (store ++ ["models", "oci", "registry.acme.org", "ns", "repo", "tag"]) Entry.dir
            ((net.ociFiles.map fun f =>
              (pjoin (store ++ ["repos", "oci", "registry.acme.org", "ns", "repo", "tag"]) f,
                Entry.file (net.ociData f))) ++ fs))
            (pjoin (store ++ ["models", "oci", "registry.acme.org", "ns", "repo", "tag"]) g)
            = some (relpath
                (pjoin (store ++ ["repos", "oci", "registry.acme.org", "ns", "repo", "tag"]) g)
                ((pjoin (store ++ ["models", "oci", "registry.acme.org", "ns", "repo", "tag"]) g).dropLast))
      · rw [if_pos hguard]
        exact ⟨rfl, lookupFS_of_readlink hguard.2⟩
      · rw [if_neg hguard]
        exact ⟨rfl, lookupFS_insert_self ..⟩

/-- C7 witness: the theorem's two parts applied at a two-`.gguf` artifact
(ambiguous, fatal, models namespace untouched) and at a one-`.gguf` artifact
(published). -/
theorem C7_oci_ambiguity_witness :
    pull_oci haA [] (netAmb) ["s"] "oci://registry.acme.org/ns/repo:tag"
      = (Outcome.exit (-1) (some ("Error: Unable to identify .gguf file in: "
            ++ pathStr (["s"] ++ ["repos", "oci", "registry.acme.org", "ns", "repo", "tag"]))),
          ((netAmb).ociFiles.map fun f =>
            (pjoin (["s"] ++ ["repos", "oci", "registry.acme.org", "ns", "repo", "tag"]) f,
              Entry.file ((netAmb).ociData f))) ++ [],
          [Ev.extPull (["s"] ++ ["repos", "oci", "registry.acme.org", "ns", "repo", "tag"])])
    ∧ ((pull_oci haA [] netW ["s"] "oci://registry.acme.org/ns/repo:tag").1
        = Outcome.ok (pjoin (["s"] ++ ["models", "oci", "registry.acme.org", "ns", "repo", "tag"]) "m.gguf")
      ∧ lookupFS (pull_oci haA [] netW ["s"] "oci://registry.acme.org/ns/repo:tag").2.1
          (pjoin (["s"] ++ ["models", "oci", "registry.acme.org", "ns", "repo", "tag"]) "m.gguf")
        = some (Entry.symlink (relpath
            (pjoin (["s"] ++ ["repos", "oci", "registry.acme.org", "ns", "repo", "tag"]) "m.gguf")
            ((pjoin (["s"] ++ ["models", "oci", "registry.acme.org", "ns", "repo", "tag"]) "m.gguf").dropLast)))) := by
  constructor
  · have hbad : ((netAmb).ociFiles.filter fun f => pyEndswith f ".gguf").length ≠ 1 := by
      decide
    exact (C7_oci_ambiguity haA [] (netAmb) ["s"]).1 hbad
  · exact (C7_oci_ambiguity haA [] netW ["s"]).2 "m.gguf" (by decide)

/-! ## C10: manifests without a model layer -/

/-- C10: when the fetched manifest has no layer of the model content type,
`init_pull` still fetches the manifest and the config blob (both fetch events
are in the trace; the config-blob hypothesis says it is not already cached),
writes no symlink (the trace holds no link event and the entry at the symlink
path is untouched), and still returns the symlink path without error — a path
that may refer to a file that does not exist. -/
theorem C10_no_model_layer (ha : List Nat → String) (fs : FS) (net : Net)
    (repos manifests : Path) (tag : String) (models symlink : Path) (model : String)
    (bytes cb : List Nat) (md : Manifest)
    (hm : net.manifest = MFetch.ok bytes md)
    (hl : ∀ l ∈ md.layers, l.mediaType ≠ "application/vnd.ollama.image.model")
    (hcfg : net.blob md.configDigest = Dl.content cb)
    (hnc : verify_checksum ha
        (insertFS manifests (Entry.file bytes)
          (makedirs (makedirs fs manifests.dropLast).1 (repos ++ ["blobs"])).1)
        (pjoin (repos ++ ["blobs"]) md.configDigest) = VC.ok false)
    (hs1 : symlink ≠ manifests)
    (hs2 : symlink ≠ pjoin (repos ++ ["blobs"]) md.configDigest)
    (hs3 : symlink ≠ manifests.dropLast)
    (hs4 : symlink ≠ repos ++ ["blobs"]) :
    (init_pull ha fs net repos manifests tag models symlink model).1 = Outcome.ok symlink
    ∧ Ev.fetch manifests ∈ (init_pull ha fs net repos manifests tag models symlink model).2.2
    ∧ Ev.fetch (pjoin (repos ++ ["blobs"]) md.configDigest)
        ∈ (init_pull ha fs net repos manifests tag models symlink model).2.2
    ∧ ((init_pull ha fs net repos manifests tag models symlink model).2.2).filter isLinkEv = []
    ∧ lookupFS (init_pull ha fs net repos manifests tag models symlink model).2.1 symlink
        = lookupFS fs symlink := by
  rcases hmk1 : makedirs fs manifests.dropLast with ⟨fs1, ev1⟩
  rcases hmk2 : makedirs fs1 (repos ++ ["blobs"]) with ⟨fs2, ev2⟩
  simp only [hmk1] at hnc
  simp only [hmk2] at hnc
  have hrc : run_curl_cmd ha (insertFS manifests (Entry.file bytes) fs2)
      (net.blob md.configDigest) (pjoin (repos ++ ["blobs"]) md.configDigest)
      = (Outcome.ok (),
          insertFS (pjoin (repos ++ ["blobs"]) md.configDigest) (Entry.file cb)
            (insertFS manifests (Entry.file bytes) fs2),
          [Ev.fetch (pjoin (repos ++ ["blobs"]) md.configDigest)]) := by
    simp [run_curl_cmd, hnc, hcfg]
  have hskip := layersLoop_skip ha net repos models symlink md.layers
    (insertFS (pjoin (repos ++ ["blobs"]) md.configDigest) (Entry.file cb)
      (insertFS manifests (Entry.file bytes) fs2)) hl
  simp only [init_pull, hmk1, hmk2, hm, hrc, hskip]
  refine ⟨by trivial, by simp, by simp, ?_, ?_⟩
  · rcases makedirs_ev_cases hmk1 with he1 | he1 <;>
      rcases makedirs_ev_cases hmk2 with he2 | he2 <;>
        simp [he1, he2, isLinkEv]
  · rw [lookupFS_insert_ne _ _ _ _ hs2, lookupFS_insert_ne _ _ _ _ hs1]
    rcases makedirs_fs_cases hmk2 with hf2 | hf2 <;>
      rcases makedirs_fs_cases hmk1 with hf1 | hf1 <;>
        subst hf2 <;> subst hf1 <;>
          simp [lookupFS_insert_ne _ _ _ _ hs4, lookupFS_insert_ne _ _ _ _ hs3]

/-- C10 witness: the theorem applied at an empty store and a manifest whose
only layer is `text/plain`; the returned symlink path is absent from the
resulting filesystem. -/
theorem C10_no_model_layer_witness :
    ((init_pull haA [] (netOf (MFetch.ok [9] ⟨digA, [⟨digA, "text/plain"⟩]⟩))
        ["s", "repos", "ollama"] ["s", "repos", "ollama", "manifests", "r", "m", "latest"]
        "latest" ["s", "models", "ollama"] ["s", "models", "ollama", "m:latest"] "m").1
      = Outcome.ok ["s", "models", "ollama", "m:latest"]
    ∧ Ev.fetch ["s", "repos", "ollama", "manifests", "r", "m", "latest"]
        ∈ (init_pull haA [] (netOf (MFetch.ok [9] ⟨digA, [⟨digA, "text/plain"⟩]⟩))
            ["s", "repos", "ollama"] ["s", "repos", "ollama", "manifests", "r", "m", "latest"]
            "latest" ["s", "models", "ollama"] ["s", "models", "ollama", "m:latest"] "m").2.2
    ∧ Ev.fetch (pjoin (["s", "repos", "ollama"] ++ ["blobs"])
          (Manifest.configDigest ⟨digA, [⟨digA, "text/plain"⟩]⟩))
        ∈ (init_pull haA [] (netOf (MFetch.ok [9] ⟨digA, [⟨digA, "text/plain"⟩]⟩))
            ["s", "repos", "ollama"] ["s", "repos", "ollama", "manifests", "r", "m", "latest"]
            "latest" ["s", "models", "ollama"] ["s", "models", "ollama", "m:latest"] "m").2.2
    ∧ ((init_pull haA [] (netOf (MFetch.ok [9] ⟨digA, [⟨digA, "text/plain"⟩]⟩))
          ["s", "repos", "ollama"] ["s", "repos", "ollama", "manifests", "r", "m", "latest"]
          "latest" ["s", "models", "ollama"] ["s", "models", "ollama", "m:latest"] "m").2.2).filter isLinkEv = []
    ∧ lookupFS (init_pull haA [] (netOf (MFetch.ok [9] ⟨digA, [⟨digA, "text/plain"⟩]⟩))
          ["s", "repos", "ollama"] ["s", "repos", "ollama", "manifests", "r", "m", "latest"]
          "latest" ["s", "models", "ollama"] ["s", "models", "ollama", "m:latest"] "m").2.1
        ["s", "models", "ollama", "m:latest"]
      = lookupFS [] ["s", "models", "ollama", "m:latest"])
    ∧ lookupFS [] ["s", "models", "ollama", "m:latest"] = none :=
  ⟨C10_no_model_layer haA [] (netOf (MFetch.ok [9] ⟨digA, [⟨digA, "text/plain"⟩]⟩))
      ["s", "repos", "ollama"] ["s", "repos", "ollama", "manifests", "r", "m", "latest"]
      "latest" ["s", "models", "ollama"] ["s", "models", "ollama", "m:latest"] "m"
      [9] [1] ⟨digA, [⟨digA, "text/plain"⟩]⟩
      (by decide) (by decide) (by decide) (by decide)
      (by decide) (by decide) (by decide) (by decide),
    by decide⟩

/-! ## C9: local-file download into the snapshot store -/

/-- C9: for the `file` scheme, the snapshot-store download step raises
FileNotFoundError when the source path does not exist; when the source exists
it copies (does not move) the source bytes into the blob path, returns the
blob path relative to the snapshot directory, and leaves the source entry
unchanged. -/
theorem C9_local_file_copy (fs : FS) (url : String) (blob snap : Path) :
    (pexists fs (strComps url) = false →
      LocalModelFile_download fs url blob snap
        = (Outcome.raised ("FileNotFoundError: No such file: " ++ url), fs, []))
    ∧ (∀ c, readFileFS fs (strComps url) = some c → blob ≠ strComps url →
        LocalModelFile_download fs url blob snap
          = (Outcome.ok (relpath blob snap), insertFS blob (Entry.file c) fs,
              [Ev.copy (strComps url) blob])
        ∧ lookupFS (insertFS blob (Entry.file c) fs) (strComps url)
            = lookupFS fs (strComps url)) := by
  constructor
  · intro hp
    simp [LocalModelFile_download, hp]
  · intro c hc hne
    have hp : pexists fs (strComps url) = true := pexists_of_readFile hc
    refine ⟨?_, lookupFS_insert_ne fs blob (strComps url) (Entry.file c)
      (fun hh => hne hh.symm)⟩
    simp [LocalModelFile_download, hp, hc]

/-- C9 witness: the theorem applied at a missing source (raises) and at an
existing source file (copied, source untouched). -/
theorem C9_local_file_copy_witness :
    LocalModelFile_download [] "/nope" ["st", "b"] ["st"]
      = (Outcome.raised ("FileNotFoundError: No such file: " ++ "/nope"), [], [])
    ∧ (LocalModelFile_download [(["src", "f"], Entry.file [7])] "/src/f" ["st", "b"] ["st"]
        = (Outcome.ok (relpath ["st", "b"] ["st"]),
            insertFS ["st", "b"] (Entry.file [7]) [(["src", "f"], Entry.file [7])],
            [Ev.copy (strComps "/src/f") ["st", "b"]])
      ∧ lookupFS (insertFS ["st", "b"] (Entry.file [7]) [(["src", "f"], Entry.file [7])])
          (strComps "/src/f")
          = lookupFS [(["src", "f"], Entry.file [7])] (strComps "/src/f")) :=
  ⟨(C9_local_file_copy [] "/nope" ["st", "b"] ["st"]).1 (by decide),
    (C9_local_file_copy [(["src", "f"], Entry.file [7])] "/src/f" ["st", "b"] ["st"]).2
      [7] (by decide) (by decide)⟩

lemma pull_cli_glob_none (ha : List Nat → String) (fs : FS) (net : Net) (store : Path)
    (model : String) (hg : globFirst fs store (strComps model) = none) :
    pull_cli ha fs net store model
      = (if pyStartswith model "huggingface://" then pull_huggingface ha fs net store model
        else if pyStartswith model "oci://" then pull_oci ha fs net store model
        else
          let model1 := stripPrefixStr "ollama://" model
          let repos_ollama := store ++ ["repos", "ollama"]
          let ramalama_models := store ++ ["models", "ollama"]
          let nt := ollama_name_tag model1
          let model_base := pyBasenameStr nt.1
          let symlink_path := pjoin ramalama_models (model_base ++ ":" ++ nt.2)
          if pexists fs symlink_path then (Outcome.ok symlink_path, fs, [])
          else
            let manifests :=
              pjoin (pjoin (pjoin (repos_ollama ++ ["manifests"]) "https://registry.ollama.ai") nt.1) nt.2
            init_pull ha fs net repos_ollama manifests nt.2 ramalama_models symlink_path model1) := by
  simp only [pull_cli, hg]

lemma pull_hf_eq (ha : List Nat → String) (fs : FS) (net : Net) (store : Path) :
    pull_huggingface ha fs net store "huggingface://org/file.gguf"
      = (if pexists (makedirs fs (store ++ ["models", "huggingface", "org"])).1
              (store ++ ["models", "huggingface", "org", "file.gguf"]) = true
          ∧ readlinkFS (makedirs fs (store ++ ["models", "huggingface", "org"])).1
              (store ++ ["models", "huggingface", "org", "file.gguf"])
            = some (relpath (strComps (pyRstrip net.hfOut)) (store ++ ["models", "huggingface", "org"]))
        then
          (Outcome.ok (store ++ ["models", "huggingface", "org", "file.gguf"]),
            (makedirs fs (store ++ ["models", "huggingface", "org"])).1,
            (makedirs fs (store ++ ["models", "huggingface", "org"])).2)
        else
          (Outcome.ok (store ++ ["models", "huggingface", "org", "file.gguf"]),
            insertFS (store ++ ["models", "huggingface", "org", "file.gguf"])
              (Entry.symlink (relpath (strComps (pyRstrip net.hfOut)) (store ++ ["models", "huggingface", "org"])))
              (makedirs fs (store ++ ["models", "huggingface", "org"])).1,
            (makedirs fs (store ++ ["models", "huggingface", "org"])).2
              ++ [Ev.link (relpath (strComps (pyRstrip net.hfOut)) (store ++ ["models", "huggingface", "org"]))
                    (store ++ ["models", "huggingface", "org", "file.gguf"])])) := by
  have h1 : stripPrefixStr "huggingface://" "huggingface://org/file.gguf" = "org/file.gguf" := by decide
  have h2 : pyRSplit1 "org/file.gguf" '/' = ["org", "file.gguf"] := by decide
  have h3 : strComps "org" = ["org"] := by decide
  have h4 : strComps "file.gguf" = ["file.gguf"] := by decide
  have h5 : (store ++ ["models", "huggingface"]) ++ ["org"] = store ++ ["models", "huggingface", "org"] := by simp
  have h6 : (store ++ ["models", "huggingface", "org"]) ++ ["file.gguf"]
      = store ++ ["models", "huggingface", "org", "file.gguf"] := by simp
  have h7 : (store ++ ["models", "huggingface", "org", "file.gguf"]).dropLast
      = store ++ ["models", "huggingface", "org"] := by
    rw [List.dropLast_append_of_ne_nil store (by decide)]
    rfl
  simp only [pull_huggingface, h1, h2, pjoin, h3, h4, h5, h6, h7]

lemma isDirAt_makedirs_self (fs : FS) (p : Path) : isDirAt (makedirs fs p).1 p = true := by
  unfold makedirs
  by_cases h : isDirAt fs p = true
  · rw [if_pos h]
    exact h
  · rw [if_neg h]
    simp [isDirAt, lookupFS_insert_self]

lemma pull_again_hf (ha : List Nat → String) (store : Path) (fs : FS) (net : Net)
    (p : Path) (fs1 : FS) (tr1 : List Ev)
    (h : pull_cli ha fs net store "huggingface://org/file.gguf" = (Outcome.ok p, fs1, tr1))
    (hs : pexists fs1 p = true) :
    pull_cli ha fs1 net store "huggingface://org/file.gguf" = (Outcome.ok p, fs1, []) := by
  have hmc : strComps "huggingface://org/file.gguf" = ["huggingface:", "org", "file.gguf"] := by decide
  cases hg : globFirst fs store ["huggingface:", "org", "file.gguf"] with
  | some m =>
    have hred : pull_cli ha fs net store "huggingface://org/file.gguf" = (Outcome.ok m, fs, []) := by
      simp only [pull_cli, hmc, hg]
    rw [hred] at h
    simp only [Prod.mk.injEq, Outcome.ok.injEq] at h
    obtain ⟨hm, hfs, htr⟩ := h
    subst hm
    subst hfs
    simp only [pull_cli, hmc, hg]
  | none =>
    have hred : pull_cli ha fs net store "huggingface://org/file.gguf"
        = pull_huggingface ha fs net store "huggingface://org/file.gguf" := by
      rw [pull_cli_glob_none ha fs net store _ (by rw [hmc]; exact hg)]
      rw [if_pos (by decide)]
    rw [hred, pull_hf_eq] at h
    have hglobdir : globMatch store ["huggingface:", "org", "file.gguf"]
        (store ++ ["models", "huggingface", "org"]) = false :=
      globMatch_false_len (by simp)
    have hgloblink : globMatch store ["huggingface:", "org", "file.gguf"]
        (store ++ ["models", "huggingface", "org", "file.gguf"]) = false :=
      globMatch_false_len (by simp)
    have hA1 : AddsOnly (fun k => globMatch store ["huggingface:", "org", "file.gguf"] k = false)
        fs (makedirs fs (store ++ ["models", "huggingface", "org"])).1 :=
      AddsOnly_makedirs fs hglobdir
    have hlinkne : store ++ ["models", "huggingface", "org", "file.gguf"]
        ≠ store ++ ["models", "huggingface", "org"] := by
      apply path_ne_of_len
      simp
    by_cases hguard : pexists (makedirs fs (store ++ ["models", "huggingface", "org"])).1
          (store ++ ["models", "huggingface", "org", "file.gguf"]) = true
        ∧ readlinkFS (makedirs fs (store ++ ["models", "huggingface", "org"])).1
            (store ++ ["models", "huggingface", "org", "file.gguf"])
          = some (relpath (strComps (pyRstrip net.hfOut)) (store ++ ["models", "huggingface", "org"]))
    · rw [if_pos hguard] at h
      simp only [Prod.mk.injEq, Outcome.ok.injEq] at h
      obtain ⟨hp, hfs, htr⟩ := h
      subst hp
      have hg1 : globFirst fs1 store ["huggingface:", "org", "file.gguf"] = none := by
        rw [← hfs, globFirst_AddsOnly hA1]
        exact hg
      have hdir : isDirAt fs1 (store ++ ["models", "huggingface", "org"]) = true := by
        rw [← hfs]
        exact isDirAt_makedirs_self fs _
      rw [pull_cli_glob_none ha fs1 net store _ (by rw [hmc]; exact hg1)]
      rw [if_pos (by decide), pull_hf_eq]
      rw [makedirs_of_dir hdir]
      rw [if_pos ⟨hs, by rw [← hfs]; exact hguard.2⟩]
    · rw [if_neg hguard] at h
      simp only [Prod.mk.injEq, Outcome.ok.injEq] at h
      obtain ⟨hp, hfs, htr⟩ := h
      subst hp
      have hA2 : AddsOnly (fun k => globMatch store ["huggingface:", "org", "file.gguf"] k = false)
          fs fs1 := by
        rw [← hfs]
        exact AddsOnly_trans hA1 (AddsOnly_insert _ _ hgloblink)
      have hg1 : globFirst fs1 store ["huggingface:", "org", "file.gguf"] = none := by
        rw [globFirst_AddsOnly hA2]
        exact hg
      have hdir : isDirAt fs1 (store ++ ["models", "huggingface", "org"]) = true := by
        rw [← hfs]
        show isDirAt (insertFS _ _ _) _ = true
        unfold isDirAt
        rw [lookupFS_insert_ne _ _ _ _ (fun hh => hlinkne hh.symm)]
        exact isDirAt_makedirs_self fs _
      rw [pull_cli_glob_none ha fs1 net store _ (by rw [hmc]; exact hg1)]
      rw [if_pos (by decide), pull_hf_eq]
      rw [makedirs_of_dir hdir]
      rw [if_pos ⟨hs, by rw [← hfs]; exact readlinkFS_insert_self ..⟩]

lemma pull_ollama_eq (ha : List Nat → String) (fs : FS) (net : Net) (store : Path)
    (hg : globFirst fs store ["llama3"] = none) :
    pull_cli ha fs net store "llama3"
      = (if pexists fs (store ++ ["models", "ollama", "llama3:latest"]) then
          (Outcome.ok (store ++ ["models", "ollama", "llama3:latest"]), fs, [])
        else init_pull ha fs net (store ++ ["repos", "ollama"])
          (store ++ ["repos", "ollama", "manifests", "https:", "registry.ollama.ai", "library", "llama3", "latest"])
          "latest" (store ++ ["models", "ollama"])
          (store ++ ["models", "ollama", "llama3:latest"]) "llama3") := by
  rw [pull_cli_glob_none ha fs net store _ (by rw [(by decide : strComps "llama3" = ["llama3"])]; exact hg)]
  rw [if_neg (by decide), if_neg (by decide)]
  have h1 : stripPrefixStr "ollama://" "llama3" = "llama3" := by decide
  have h2 : ollama_name_tag "llama3" = ("library/llama3", "latest") := by decide
  have h3 : pyBasenameStr "library/llama3" = "llama3" := by decide
  have h4 : strComps ("llama3" ++ ":" ++ "latest") = ["llama3:latest"] := by decide
  have h5 : strComps "https://registry.ollama.ai" = ["https:", "registry.ollama.ai"] := by decide
  have h6 : strComps "library/llama3" = ["library", "llama3"] := by decide
  have h7 : strComps "latest" = ["latest"] := by decide
  simp only [h1, h2, h3, pjoin, h4, h5, h6, h7, List.append_assoc]
  rfl

lemma pull_again_ollama (ha : List Nat → String) (store : Path) (fs : FS) (net : Net)
    (p : Path) (fs1 : FS) (tr1 : List Ev)
    (h : pull_cli ha fs net store "llama3" = (Outcome.ok p, fs1, tr1))
    (hs : pexists fs1 p = true) :
    pull_cli ha fs1 net store "llama3" = (Outcome.ok p, fs1, []) := by
  have hmc : strComps "llama3" = ["llama3"] := by decide
  cases hg : globFirst fs store ["llama3"] with
  | some m =>
    have hred : pull_cli ha fs net store "llama3" = (Outcome.ok m, fs, []) := by
      simp only [pull_cli, hmc, hg]
    rw [hred] at h
    simp only [Prod.mk.injEq, Outcome.ok.injEq] at h
    obtain ⟨hm, hfs, htr⟩ := h
    subst hm
    subst hfs
    simp only [pull_cli, hmc, hg]
  | none =>
    rw [pull_ollama_eq ha fs net store hg] at h
    by_cases hpe : pexists fs (store ++ ["models", "ollama", "llama3:latest"]) = true
    · rw [if_pos hpe] at h
      simp only [Prod.mk.injEq, Outcome.ok.injEq] at h
      obtain ⟨hp, hfs, htr⟩ := h
      subst hp
      subst hfs
      rw [pull_ollama_eq ha fs net store hg]
      rw [if_pos hpe]
    · rw [if_neg hpe] at h
      have hP : ∀ k : Path, True := fun _ => trivial
      have hpd : (store ++ ["repos", "ollama", "manifests", "https:", "registry.ollama.ai", "library", "llama3", "latest"]).dropLast
          = store ++ ["repos", "ollama", "manifests", "https:", "registry.ollama.ai", "library", "llama3"] := by
        rw [List.dropLast_append_of_ne_nil store (by decide)]
        rfl
      obtain ⟨hq, hAdds⟩ := init_pull_ok
        (P := fun k => globMatch store ["llama3"] k = false) h
        (by rw [hpd]; exact globMatch_false_head (by decide))
        (by rw [List.append_assoc]; exact globMatch_false_head (by decide))
        (globMatch_false_head (by decide))
        (fun d2 => by
          show globMatch store ["llama3"]
            (((store ++ ["repos", "ollama"]) ++ ["blobs"]) ++ strComps d2) = false
          rw [List.append_assoc, List.append_assoc]
          exact globMatch_false_head (by decide))
        (globMatch_false_len (by decide))
        (globMatch_false_drop (by decide))
      subst hq
      have hg1 : globFirst fs1 store ["llama3"] = none := by
        rw [globFirst_AddsOnly hAdds]
        exact hg
      rw [pull_ollama_eq ha fs1 net store hg1]
      rw [if_pos hs]

lemma pull_oci_map_adds (net : Net) (store : Path) (outrest : List String) (fs : FS)
    (hfiles : ∀ f ∈ net.ociFiles, strComps f = [f]) :
    ∀ x ∈ (net.ociFiles.map fun f =>
      (pjoin (store ++ outrest) f, Entry.file (net.ociData f))),
      (∃ f2 ∈ net.ociFiles, x.1 = store ++ (outrest ++ [f2])) ∧ ∃ c, x.2 = Entry.file c := by
  intro x hx
  obtain ⟨f, hf, hfx⟩ := List.mem_map.mp hx
  subst hfx
  refine ⟨⟨f, hf, ?_⟩, ⟨net.ociData f, rfl⟩⟩
  show (store ++ outrest) ++ strComps f = store ++ (outrest ++ [f])
  rw [hfiles f hf, List.append_assoc]

lemma readlinkFS_append_notmem (new fs : FS) (q : Path)
    (h : ∀ x ∈ new, x.1 ≠ q) : readlinkFS (new ++ fs) q = readlinkFS fs q := by
  unfold readlinkFS
  rw [lookupFS_append_notmem new fs q h]

lemma pull_again_oci (ha : List Nat → String) (store : Path) (fs : FS) (net : Net)
    (p : Path) (fs1 : FS) (tr1 : List Ev)
    (hfiles : ∀ f ∈ net.ociFiles, strComps f = [f])
    (h : pull_cli ha fs net store "oci://registry.acme.org/ns/repo:tag" = (Outcome.ok p, fs1, tr1))
    (hs : pexists fs1 p = true) :
    (pull_cli ha fs1 net store "oci://registry.acme.org/ns/repo:tag").1 = Outcome.ok p
    ∧ ((pull_cli ha fs1 net store "oci://registry.acme.org/ns/repo:tag").2.2).filter isLinkEv = []
    ∧ lookupFS (pull_cli ha fs1 net store "oci://registry.acme.org/ns/repo:tag").2.1 p
        = lookupFS fs1 p := by
  have hmc : strComps "oci://registry.acme.org/ns/repo:tag"
      = ["oci:", "registry.acme.org", "ns", "repo:tag"] := by decide
  have hdec : oci_target_decompose "oci://registry.acme.org/ns/repo:tag"
      = Outcome.ok ("registry.acme.org/ns/repo:tag", "registry.acme.org", "ns/repo:tag", "ns/repo/tag") := by
    decide
  have hr1 : strComps "registry.acme.org" = ["registry.acme.org"] := by decide
  have hr2 : strComps "ns/repo/tag" = ["ns", "repo", "tag"] := by decide
  have ho : pjoin (pjoin (store ++ ["repos", "oci"]) "registry.acme.org") "ns/repo/tag"
      = store ++ ["repos", "oci", "registry.acme.org", "ns", "repo", "tag"] := by
    simp [pjoin, hr1, hr2]
  have hm2 : pjoin (pjoin (store ++ ["models", "oci"]) "registry.acme.org") "ns/repo/tag"
      = store ++ ["models", "oci", "registry.acme.org", "ns", "repo", "tag"] := by
    simp [pjoin, hr1, hr2]
  cases hg : globFirst fs store ["oci:", "registry.acme.org", "ns", "repo:tag"] with
  | some m =>
    have hred : pull_cli ha fs net store "oci://registry.acme.org/ns/repo:tag"
        = (Outcome.ok m, fs, []) := by
      simp only [pull_cli, hmc, hg]
    rw [hred] at h
    simp only [Prod.mk.injEq, Outcome.ok.injEq] at h
    obtain ⟨hm, hfs, htr⟩ := h
    subst hm
    subst hfs
    have hred2 : pull_cli ha fs net store "oci://registry.acme.org/ns/repo:tag"
        = (Outcome.ok m, fs, []) := by
      simp only [pull_cli, hmc, hg]
    rw [hred2]
    exact ⟨rfl, rfl, rfl⟩
  | none =>
    rw [pull_cli_glob_none ha fs net store _ (by rw [hmc]; exact hg),
      if_neg (by decide), if_pos (by decide)] at h
    simp only [pull_oci, hdec, ho, hm2] at h
    by_cases hlen : (net.ociFiles.filter fun f => pyEndswith f ".gguf").length ≠ 1
    · rw [if_pos hlen] at h
      simp at h
    · rw [if_neg hlen] at h
      obtain ⟨g, hg1⟩ := List.length_eq_one.mp (not_not.mp hlen)
      rw [hg1] at h
      simp only [List.getD_cons_zero] at h
      have hgf : g ∈ net.ociFiles :=
        List.mem_of_mem_filter (by rw [hg1]; exact List.mem_singleton_self g)
      have hgc : strComps g = [g] := hfiles g hgf
      have hpjm : pjoin (store ++ ["models", "oci", "registry.acme.org", "ns", "repo", "tag"]) g
          = store ++ ["models", "oci", "registry.acme.org", "ns", "repo", "tag", g] := by
        show (store ++ ["models", "oci", "registry.acme.org", "ns", "repo", "tag"]) ++ strComps g = _
        rw [hgc, List.append_assoc]
        rfl
      have hpjr : pjoin (store ++ ["repos", "oci", "registry.acme.org", "ns", "repo", "tag"]) g
          = store ++ ["repos", "oci", "registry.acme.org", "ns", "repo", "tag", g] := by
        show (store ++ ["repos", "oci", "registry.acme.org", "ns", "repo", "tag"]) ++ strComps g = _
        rw [hgc, List.append_assoc]
        rfl
      have hdl : (store ++ ["models", "oci", "registry.acme.org", "ns", "repo", "tag", g]).dropLast
          = store ++ ["models", "oci", "registry.acme.org", "ns", "repo", "tag"] := by
        rw [List.dropLast_append_of_ne_nil store (by simp)]
        rfl
      rw [hpjm, hpjr, hdl] at h
      -- abbreviations by hand: mapped entries, first filesystem after omlmd
      rcases hmk : makedirs
          ((net.ociFiles.map fun f =>
            (pjoin (store ++ ["repos", "oci", "registry.acme.org", "ns", "repo", "tag"]) f,
              Entry.file (net.ociData f))) ++ fs)
          (store ++ ["models", "oci", "registry.acme.org", "ns", "repo", "tag"]) with ⟨fsA, evA⟩
      simp only [hmk] at h
      have hmapP := pull_oci_map_adds net store
        ["repos", "oci", "registry.acme.org", "ns", "repo", "tag"] fs hfiles
      have hmapGlob : ∀ x ∈ (net.ociFiles.map fun f =>
          (pjoin (store ++ ["repos", "oci", "registry.acme.org", "ns", "repo", "tag"]) f,
            Entry.file (net.ociData f))),
          globMatch store ["oci:", "registry.acme.org", "ns", "repo:tag"] x.1 = false := by
        intro x hx
        obtain ⟨⟨f2, hf2, hk⟩, _⟩ := hmapP x hx
        rw [hk]
        rw [show (["repos", "oci", "registry.acme.org", "ns", "repo", "tag"] ++ [f2] : List String)
          = "repos" :: (["oci", "registry.acme.org", "ns", "repo", "tag"] ++ [f2]) from rfl]
        exact globMatch_false_head (by decide)
      have hmapNeDir : ∀ x ∈ (net.ociFiles.map fun f =>
          (pjoin (store ++ ["repos", "oci", "registry.acme.org", "ns", "repo", "tag"]) f,
            Entry.file (net.ociData f))),
          x.1 ≠ store ++ ["models", "oci", "registry.acme.org", "ns", "repo", "tag"] := by
        intro x hx
        obtain ⟨⟨f2, hf2, hk⟩, _⟩ := hmapP x hx
        rw [hk]
        rw [show (["repos", "oci", "registry.acme.org", "ns", "repo", "tag"] ++ [f2] : List String)
          = "repos" :: (["oci", "registry.acme.org", "ns", "repo", "tag"] ++ [f2]) from rfl]
        exact path_append_ne_of_head (by decide)
      have hmapNeSym : ∀ x ∈ (net.ociFiles.map fun f =>
          (pjoin (store ++ ["repos", "oci", "registry.acme.org", "ns", "repo", "tag"]) f,
            Entry.file (net.ociData f))),
          x.1 ≠ store ++ ["models", "oci", "registry.acme.org", "ns", "repo", "tag", g] := by
        intro x hx
        obtain ⟨⟨f2, hf2, hk⟩, _⟩ := hmapP x hx
        rw [hk]
        rw [show (["repos", "oci", "registry.acme.org", "ns", "repo", "tag"] ++ [f2] : List String)
          = "repos" :: (["oci", "registry.acme.org", "ns", "repo", "tag"] ++ [f2]) from rfl]
        exact path_append_ne_of_head (by decide)
      have hmapFiles : ∀ x ∈ (net.ociFiles.map fun f =>
          (pjoin (store ++ ["repos", "oci", "registry.acme.org", "ns", "repo", "tag"]) f,
            Entry.file (net.ociData f))),
          ∃ c, x.2 = Entry.file c := fun x hx => (hmapP x hx).2
      have hAmap : AddsOnly (fun k => globMatch store ["oci:", "registry.acme.org", "ns", "repo:tag"] k = false)
          fs ((net.ociFiles.map fun f =>
            (pjoin (store ++ ["repos", "oci", "registry.acme.org", "ns", "repo", "tag"]) f,
              Entry.file (net.ociData f))) ++ fs) :=
        ⟨_, rfl, hmapGlob⟩
      have hAfsA : AddsOnly (fun k => globMatch store ["oci:", "registry.acme.org", "ns", "repo:tag"] k = false)
          fs fsA := by
        have h2 := AddsOnly_makedirs (P := fun k => globMatch store ["oci:", "registry.acme.org", "ns", "repo:tag"] k = false)
          ((net.ociFiles.map fun f =>
            (pjoin (store ++ ["repos", "oci", "registry.acme.org", "ns", "repo", "tag"]) f,
              Entry.file (net.ociData f))) ++ fs)
          (q := store ++ ["models", "oci", "registry.acme.org", "ns", "repo", "tag"])
          (globMatch_false_drop (by decide))
        rw [hmk] at h2
        exact AddsOnly_trans hAmap h2
      have hdirA : isDirAt fsA (store ++ ["models", "oci", "registry.acme.org", "ns", "repo", "tag"]) = true := by
        have h2 := isDirAt_makedirs_self
          ((net.ociFiles.map fun f =>
            (pjoin (store ++ ["repos", "oci", "registry.acme.org", "ns", "repo", "tag"]) f,
              Entry.file (net.ociData f))) ++ fs)
          (store ++ ["models", "oci", "registry.acme.org", "ns", "repo", "tag"])
        rw [hmk] at h2
        exact h2
      have hSymNeDir : store ++ ["models", "oci", "registry.acme.org", "ns", "repo", "tag", g]
          ≠ store ++ ["models", "oci", "registry.acme.org", "ns", "repo", "tag"] := by
        apply path_ne_of_len
        simp
      by_cases hguard : pexists fsA (store ++ ["models", "oci", "registry.acme.org", "ns", "repo", "tag", g]) = true
          ∧ readlinkFS fsA (store ++ ["models", "oci", "registry.acme.org", "ns", "repo", "tag", g])
            = some (relpath (store ++ ["repos", "oci", "registry.acme.org", "ns", "repo", "tag", g])
                (store ++ ["models", "oci", "registry.acme.org", "ns", "repo", "tag"]))
      · rw [if_pos hguard] at h
        simp only [Prod.mk.injEq, Outcome.ok.injEq] at h
        obtain ⟨hp, hfs, htr⟩ := h
        subst hp
        subst hfs
        have hg2 : globFirst fsA store ["oci:", "registry.acme.org", "ns", "repo:tag"] = none := by
          rw [globFirst_AddsOnly hAfsA]
          exact hg
        have hdir1 : isDirAt fsA (store ++ ["models", "oci", "registry.acme.org", "ns", "repo", "tag"]) = true :=
          hdirA
        have hlink1 : readlinkFS fsA (store ++ ["models", "oci", "registry.acme.org", "ns", "repo", "tag", g])
            = some (relpath (store ++ ["repos", "oci", "registry.acme.org", "ns", "repo", "tag", g])
                (store ++ ["models", "oci", "registry.acme.org", "ns", "repo", "tag"])) := hguard.2
        -- second call
        rw [pull_cli_glob_none ha fsA net store _ (by rw [hmc]; exact hg2),
          if_neg (by decide), if_pos (by decide)]
        simp only [pull_oci, hdec, ho, hm2]
        rw [if_neg hlen, hg1]
        simp only [List.getD_cons_zero]
        rw [hpjm, hpjr, hdl]
        have hlkdir : isDirAt ((net.ociFiles.map fun f =>
            (pjoin (store ++ ["repos", "oci", "registry.acme.org", "ns", "repo", "tag"]) f,
              Entry.file (net.ociData f))) ++ fsA)
            (store ++ ["models", "oci", "registry.acme.org", "ns", "repo", "tag"]) = true := by
          unfold isDirAt
          rw [lookupFS_append_notmem _ _ _ hmapNeDir]
          exact hdir1
        rw [makedirs_of_dir hlkdir]
        have hpex2 : pexists ((net.ociFiles.map fun f =>
            (pjoin (store ++ ["repos", "oci", "registry.acme.org", "ns", "repo", "tag"]) f,
              Entry.file (net.ociData f))) ++ fsA)
            (store ++ ["models", "oci", "registry.acme.org", "ns", "repo", "tag", g]) = true :=
          pexists_true_append_files hmapFiles hmapNeSym hs
        have hrl2 : readlinkFS ((net.ociFiles.map fun f =>
            (pjoin (store ++ ["repos", "oci", "registry.acme.org", "ns", "repo", "tag"]) f,
              Entry.file (net.ociData f))) ++ fsA)
            (store ++ ["models", "oci", "registry.acme.org", "ns", "repo", "tag", g])
            = some (relpath (store ++ ["repos", "oci", "registry.acme.org", "ns", "repo", "tag", g])
                (store ++ ["models", "oci", "registry.acme.org", "ns", "repo", "tag"])) := by
          rw [readlinkFS_append_notmem _ _ _ hmapNeSym]
          exact hlink1
        rw [if_pos ⟨hpex2, hrl2⟩]
        refine ⟨rfl, by simp [isLinkEv], ?_⟩
        exact lookupFS_append_notmem _ _ _ hmapNeSym
      · rw [if_neg hguard] at h
        simp only [Prod.mk.injEq, Outcome.ok.injEq] at h
        obtain ⟨hp, hfs, htr⟩ := h
        subst hp
        subst hfs
        have hAfs1 : AddsOnly (fun k => globMatch store ["oci:", "registry.acme.org", "ns", "repo:tag"] k = false)
            fs (insertFS (store ++ ["models", "oci", "registry.acme.org", "ns", "repo", "tag", g])
              (Entry.symlink (relpath (store ++ ["repos", "oci", "registry.acme.org", "ns", "repo", "tag", g])
                (store ++ ["models", "oci", "registry.acme.org", "ns", "repo", "tag"]))) fsA) :=
          AddsOnly_trans hAfsA (AddsOnly_insert _ _ (globMatch_false_len (by simp)))
        have hg2 : globFirst (insertFS (store ++ ["models", "oci", "registry.acme.org", "ns", "repo", "tag", g])
            (Entry.symlink (relpath (store ++ ["repos", "oci", "registry.acme.org", "ns", "repo", "tag", g])
              (store ++ ["models", "oci", "registry.acme.org", "ns", "repo", "tag"]))) fsA)
            store ["oci:", "registry.acme.org", "ns", "repo:tag"] = none := by
          rw [globFirst_AddsOnly hAfs1]
          exact hg
        rw [pull_cli_glob_none ha _ net store _ (by rw [hmc]; exact hg2),
          if_neg (by decide), if_pos (by decide)]
        simp only [pull_oci, hdec, ho, hm2]
        rw [if_neg hlen, hg1]
        simp only [List.getD_cons_zero]
        rw [hpjm, hpjr, hdl]
        have hdir1 : isDirAt (insertFS (store ++ ["models", "oci", "registry.acme.org", "ns", "repo", "tag", g])
            (Entry.symlink (relpath (store ++ ["repos", "oci", "registry.acme.org", "ns", "repo", "tag", g])
              (store ++ ["models", "oci", "registry.acme.org", "ns", "repo", "tag"]))) fsA)
            (store ++ ["models", "oci", "registry.acme.org", "ns", "repo", "tag"]) = true := by
          unfold isDirAt
          rw [lookupFS_insert_ne _ _ _ _ (fun hh => hSymNeDir hh.symm)]
          exact hdirA
        have hlkdir : isDirAt ((net.ociFiles.map fun f =>
            (pjoin (store ++ ["repos", "oci", "registry.acme.org", "ns", "repo", "tag"]) f,
              Entry.file (net.ociData f))) ++ insertFS (store ++ ["models", "oci", "registry.acme.org", "ns", "repo", "tag", g])
              (Entry.symlink (relpath (store ++ ["repos", "oci", "registry.acme.org", "ns", "repo", "tag", g])
                (store ++ ["models", "oci", "registry.acme.org", "ns", "repo", "tag"]))) fsA)
            (store ++ ["models", "oci", "registry.acme.org", "ns", "repo", "tag"]) = true := by
          unfold isDirAt
          rw [lookupFS_append_notmem _ _ _ hmapNeDir]
          exact hdir1
        rw [makedirs_of_dir hlkdir]
        have hpex2 : pexists ((net.ociFiles.map fun f =>
            (pjoin (store ++ ["repos", "oci", "registry.acme.org", "ns", "repo", "tag"]) f,
              Entry.file (net.ociData f))) ++ insertFS (store ++ ["models", "oci", "registry.acme.org", "ns", "repo", "tag", g])
              (Entry.symlink (relpath (store ++ ["repos", "oci", "registry.acme.org", "ns", "repo", "tag", g])
                (store ++ ["models", "oci", "registry.acme.org", "ns", "repo", "tag"]))) fsA)
            (store ++ ["models", "oci", "registry.acme.org", "ns", "repo", "tag", g]) = true :=
          pexists_true_append_files hmapFiles hmapNeSym hs
        have hrl2 : readlinkFS ((net.ociFiles.map fun f =>
            (pjoin (store ++ ["repos", "oci", "registry.acme.org", "ns", "repo", "tag"]) f,
              Entry.file (net.ociData f))) ++ insertFS (store ++ ["models", "oci", "registry.acme.org", "ns", "repo", "tag", g])
              (Entry.symlink (relpath (store ++ ["repos", "oci", "registry.acme.org", "ns", "repo", "tag", g])
                (store ++ ["models", "oci", "registry.acme.org", "ns", "repo", "tag"]))) fsA)
            (store ++ ["models", "oci", "registry.acme.org", "ns", "repo", "tag", g])
            = some (relpath (store ++ ["repos", "oci", "registry.acme.org", "ns", "repo", "tag", g])
                (store ++ ["models", "oci", "registry.acme.org", "ns", "repo", "tag"])) := by
          rw [readlinkFS_append_notmem _ _ _ hmapNeSym]
          exact readlinkFS_insert_self ..
        rw [if_pos ⟨hpex2, hrl2⟩]
        refine ⟨rfl, by simp [isLinkEv], ?_⟩
        exact lookupFS_append_notmem _ _ _ hmapNeSym

/-! ## C1: pull idempotence -/

/-- C1 counterexample: the claim says every second pull performs zero
filesystem writes.  For the OCI reference `oci://r.io/n/m` the first pull
succeeds and its published path resolves, yet the second pull re-runs
`omlmd pull` (ramalama.py:261 runs it unconditionally), which re-materializes
the artifact files under `repos/oci` — a non-empty mutation trace. -/
theorem C1_counterexample :
    (pull_cli haA [] netW ["s"] "oci://r.io/n/m").1
      = Outcome.ok ["s", "models", "oci", "r.io", "n", "m", "m.gguf"]
    ∧ pexists (pull_cli haA [] netW ["s"] "oci://r.io/n/m").2.1
        ["s", "models", "oci", "r.io", "n", "m", "m.gguf"] = true
    ∧ (pull_cli haA (pull_cli haA [] netW ["s"] "oci://r.io/n/m").2.1 netW ["s"] "oci://r.io/n/m").2.2
        = [Ev.extPull ["s", "repos", "oci", "r.io", "n", "m"]]
    ∧ (pull_cli haA (pull_cli haA [] netW ["s"] "oci://r.io/n/m").2.1 netW ["s"] "oci://r.io/n/m").2.2
        ≠ [] := by
  refine ⟨by decide, by decide, by decide, by decide⟩

/-- C1 (amended): after a successful first pull (one whose published path
resolves to an existing file), with the store otherwise unchanged and the
same remote state, a second pull of a huggingface or Ollama reference
performs zero filesystem writes and returns the identical published path;
a second pull of an OCI reference re-runs the delegated artifact fetch but
writes no symlink, leaves the entry at the published path unchanged, and
returns the identical path.  (Shown at a representative reference of each
scheme, universally over stores, filesystems and remote states; the
huggingface case also exhibits the publisher's compare-before-write guard,
and for OCI the artifact file names are single path components, as
`os.listdir` yields.) -/
theorem C1_amended :
    (∀ (ha : List Nat → String) (store : Path) (fs : FS) (net : Net)
      (p : Path) (fs1 : FS) (tr1 : List Ev),
      pull_cli ha fs net store "huggingface://org/file.gguf" = (Outcome.ok p, fs1, tr1) →
      pexists fs1 p = true →
      pull_cli ha fs1 net store "huggingface://org/file.gguf" = (Outcome.ok p, fs1, []))
    ∧ (∀ (ha : List Nat → String) (store : Path) (fs : FS) (net : Net)
      (p : Path) (fs1 : FS) (tr1 : List Ev),
      pull_cli ha fs net store "llama3" = (Outcome.ok p, fs1, tr1) →
      pexists fs1 p = true →
      pull_cli ha fs1 net store "llama3" = (Outcome.ok p, fs1, []))
    ∧ (∀ (ha : List Nat → String) (store : Path) (fs : FS) (net : Net)
      (p : Path) (fs1 : FS) (tr1 : List Ev),
      (∀ f ∈ net.ociFiles, strComps f = [f]) →
      pull_cli ha fs net store "oci://registry.acme.org/ns/repo:tag" = (Outcome.ok p, fs1, tr1) →
      pexists fs1 p = true →
      (pull_cli ha fs1 net store "oci://registry.acme.org/ns/repo:tag").1 = Outcome.ok p
      ∧ ((pull_cli ha fs1 net store "oci://registry.acme.org/ns/repo:tag").2.2).filter isLinkEv = []
      ∧ lookupFS (pull_cli ha fs1 net store "oci://registry.acme.org/ns/repo:tag").2.1 p
          = lookupFS fs1 p) :=
  ⟨pull_again_hf, pull_again_ollama, pull_again_oci⟩

/-- C1 witness: the amended theorem applied, for each scheme, to a concrete
successful first pull. -/
theorem C1_amended_witness :
    pull_cli haA fsHf1 netW ["s"] "huggingface://org/file.gguf"
      = (Outcome.ok ["s", "models", "huggingface", "org", "file.gguf"], fsHf1, [])
    ∧ pull_cli haA fsOl1 netW ["s"] "llama3"
      = (Outcome.ok ["s", "models", "ollama", "llama3:latest"], fsOl1, [])
    ∧ ((pull_cli haA fsOci1 netW ["s"] "oci://registry.acme.org/ns/repo:tag").1
        = Outcome.ok ["s", "models", "oci", "registry.acme.org", "ns", "repo", "tag", "m.gguf"]
      ∧ ((pull_cli haA fsOci1 netW ["s"] "oci://registry.acme.org/ns/repo:tag").2.2).filter isLinkEv = []
      ∧ lookupFS (pull_cli haA fsOci1 netW ["s"] "oci://registry.acme.org/ns/repo:tag").2.1
          ["s", "models", "oci", "registry.acme.org", "ns", "repo", "tag", "m.gguf"]
          = lookupFS fsOci1 ["s", "models", "oci", "registry.acme.org", "ns", "repo", "tag", "m.gguf"]) :=
  ⟨C1_amended.1 haA ["s"] fsHf0 netW ["s", "models", "huggingface", "org", "file.gguf"] fsHf1
      [Ev.mkdir ["s", "models", "huggingface", "org"],
        Ev.link ["..", "..", "..", "..", "r", "f.gguf"] ["s", "models", "huggingface", "org", "file.gguf"]]
      (by decide) (by decide),
    C1_amended.2.1 haA ["s"] [] netW ["s", "models", "ollama", "llama3:latest"] fsOl1
      [Ev.mkdir ["s", "repos", "ollama", "manifests", "https:", "registry.ollama.ai", "library", "llama3"],
        Ev.mkdir ["s", "repos", "ollama", "blobs"],
        Ev.fetch ["s", "repos", "ollama", "manifests", "https:", "registry.ollama.ai", "library", "llama3", "latest"],
        Ev.fetch ["s", "repos", "ollama", "blobs", digA],
        Ev.mkdir ["s", "models", "ollama"],
        Ev.link ["..", "..", "repos", "ollama", "blobs", digA] ["s", "models", "ollama", "llama3:latest"]]
      (by decide) (by decide),
    C1_amended.2.2 haA ["s"] [] netW
      ["s", "models", "oci", "registry.acme.org", "ns", "repo", "tag", "m.gguf"] fsOci1
      [Ev.extPull ["s", "repos", "oci", "registry.acme.org", "ns", "repo", "tag"],
        Ev.mkdir ["s", "models", "oci", "registry.acme.org", "ns", "repo", "tag"],
        Ev.link ["..", "..", "..", "..", "..", "..", "repos", "oci", "registry.acme.org", "ns", "repo", "tag", "m.gguf"]
          ["s", "models", "oci", "registry.acme.org", "ns", "repo", "tag", "m.gguf"]]
      (by decide) (by decide) (by decide)⟩


end Ramalama
